import Mathlib

/-!
# Verification of the giftify claim/visibility/notification subsystem

Shallow embedding of the SQL trigger/policy core of the repository:

* `are_friends`, `can_view_wishlist` — SECURITY DEFINER helpers
  (migration "Fix Supabase Security Warnings", part_006).
* `prevent_solo_on_split_item` / `prevent_split_on_claimed_item` — claim
  mutual-exclusion triggers (part_006).
* `check_split_claim_completion` — split auto-confirmation trigger (part_006).
* notification triggers for split claims (part_007 / part_006).
* `fulfill_claims_for_item` (migration 20251229_mark_as_received.sql).
* `item_ownership_flags` triggers (migration 20250102_ownership_flags.sql).
* partial unique indexes `idx_item_claims_item_id_active`,
  `idx_split_claims_item_id_active` (migration 20251230_fix_reclaim_after_cancel.sql).

Row ids and user ids are modelled as `Nat`; the database is a record of row
lists; each external operation is one atomic transition (one SQL transaction),
matching the spec's concurrency model of serializable per-request
transactions.  SQL `NULL` produced by `SELECT ... INTO` on an empty result is
modelled with `Option`, and `NULL`-comparisons collapse to `false` in filter
position, exactly as in SQL's three-valued logic.
-/

/-- Wishlist privacy (`wishlists.privacy`).  `priv` is the SQL value
`'private'`; `legacy` stands for any unrecognised/legacy value, which the
`ELSE` arm of `can_view_wishlist` treats like `'friends'`. -/
inductive Privacy where
  | friends
  | selected_friends
  | priv
  | legacy
deriving DecidableEq

/-- `friendships.status`. -/
inductive FriendStatus where
  | pending
  | accepted
deriving DecidableEq

/-- `claim_status` enum: used by `item_claims.status` and
`split_claims.claim_status` (the `'fulfilled'` value is added by migration
20251229_mark_as_received.sql). -/
inductive ClaimStatus where
  | active
  | cancelled
  | fulfilled
deriving DecidableEq

/-- `split_claim_status` enum (`split_claims.status`): the participation
state machine, distinct from the claim lifecycle column `claim_status`. -/
inductive SplitStatus where
  | pending
  | confirmed
deriving DecidableEq

/-- `ownership_flag_status` enum (migration 20250102_ownership_flags.sql). -/
inductive FlagStatus where
  | pending
  | confirmed
  | denied
deriving DecidableEq

/-- The `notification_type` values produced by the modelled operations. -/
inductive NotificationType where
  | split_initiated
  | split_joined
  | split_left
  | split_confirmed
  | split_cancelled
  | gift_received
  | item_flagged_already_owned
  | flag_confirmed
  | flag_denied
deriving DecidableEq

/-- A row of `wishlists` (the columns the subsystem reads). -/
structure Wishlist where
  id : Nat
  user_id : Nat
  privacy : Privacy
deriving DecidableEq

/-- A row of `wishlist_items` (the columns the subsystem reads). -/
structure Item where
  id : Nat
  wishlist_id : Nat
deriving DecidableEq

/-- A row of `friendships`. -/
structure Friendship where
  requester_id : Nat
  addressee_id : Nat
  status : FriendStatus
deriving DecidableEq

/-- A row of `item_claims` (solo claims). -/
structure ItemClaim where
  id : Nat
  item_id : Nat
  claimed_by : Nat
  status : ClaimStatus
  fulfilled_at : Option Nat
deriving DecidableEq

/-- A row of `split_claims`.  `status` is the pending/confirmed state machine,
`claim_status` the active/cancelled/fulfilled lifecycle used by the partial
unique index and by `fulfill_claims_for_item`. -/
structure SplitClaim where
  id : Nat
  item_id : Nat
  initiated_by : Nat
  target_participants : Nat
  status : SplitStatus
  claim_status : ClaimStatus
  confirmed_at : Option Nat
  fulfilled_at : Option Nat
deriving DecidableEq

/-- A row of `split_claim_participants` (weak entity keyed by
`(split_claim_id, user_id)`). -/
structure Participant where
  split_claim_id : Nat
  user_id : Nat
deriving DecidableEq

/-- A row of `item_ownership_flags`. -/
structure OwnershipFlag where
  id : Nat
  item_id : Nat
  flagged_by : Nat
  status : FlagStatus
deriving DecidableEq

/-- A row of `notifications` (text columns omitted: claims under audit only
concern recipients, types and foreign keys). -/
structure Notification where
  user_id : Nat
  ntype : NotificationType
  actor_id : Option Nat
  item_id : Option Nat
  wishlist_id : Option Nat
  split_claim_id : Option Nat
deriving DecidableEq

/-- The database state.  `nextId` is the id supply for inserted rows, `now`
the transaction timestamp `NOW()`. -/
structure DB where
  wishlists : List Wishlist
  items : List Item
  friendships : List Friendship
  selected_friends : List (Nat × Nat)
  item_claims : List ItemClaim
  split_claims : List SplitClaim
  participants : List Participant
  flags : List OwnershipFlag
  notifications : List Notification
  nextId : Nat
  now : Nat
deriving DecidableEq

/-- SQL `=` between possibly-NULL values in filter position: a comparison
with `NULL` is never true. -/
def optEqNat : Option Nat → Option Nat → Bool
  | some x, some y => decide (x = y)
  | _, _ => false

/-- SQL `!=` between possibly-NULL values in filter position: a comparison
with `NULL` is never true. -/
def optNeNat : Option Nat → Option Nat → Bool
  | some x, some y => decide (x ≠ y)
  | _, _ => false

/-- `are_friends(user1_id, user2_id)` (part_006 lines 42-54): an accepted
friendship row exists in either orientation.  Arguments are `Option` so that
the call `are_friends(NULL, viewer)` arising from a missing wishlist record
is modelled faithfully. -/
def are_friends (db : DB) (user1 user2 : Option Nat) : Bool :=
  db.friendships.any fun f =>
    decide (f.status = FriendStatus.accepted) &&
      ((optEqNat (some f.requester_id) user1 && optEqNat (some f.addressee_id) user2) ||
       (optEqNat (some f.requester_id) user2 && optEqNat (some f.addressee_id) user1))

/-- `can_view_wishlist(wishlist_id, viewer_id)` (part_006 lines 57-91).
`SELECT user_id, privacy INTO wishlist_record` on a missing wishlist leaves
both fields NULL: the owner test is then not true, and the `CASE` on a NULL
privacy falls through to the `ELSE` arm. -/
def can_view_wishlist (db : DB) (wishlist_id viewer_id : Nat) : Bool :=
  let w? := db.wishlists.find? fun w => decide (w.id = wishlist_id)
  let owner? := w?.map (·.user_id)
  if optEqNat owner? (some viewer_id) then
    true
  else
    match w?.map (·.privacy) with
    | some Privacy.friends => are_friends db owner? (some viewer_id)
    | some Privacy.selected_friends =>
        are_friends db owner? (some viewer_id) &&
          db.selected_friends.any fun p =>
            decide (p.1 = wishlist_id) && decide (p.2 = viewer_id)
    | some Privacy.priv => false
    | some Privacy.legacy => are_friends db owner? (some viewer_id)
    | none => are_friends db owner? (some viewer_id)

/-- The wishlist an item belongs to (`wishlist_items.wishlist_id`). -/
def itemWishlist (db : DB) (item_id : Nat) : Option Nat :=
  (db.items.find? fun it => decide (it.id = item_id)).map (·.wishlist_id)

/-- `get_split_claim_item_info(p_item_id)` (part_006 lines 407-426), text
columns omitted: the `(wishlist_id, wishlist_owner_id)` of the item's
wishlist, `none` when the item/wishlist join is empty. -/
def get_split_claim_item_info (db : DB) (item_id : Nat) : Option (Nat × Nat) :=
  match db.items.find? fun it => decide (it.id = item_id) with
  | none => none
  | some it =>
      (db.wishlists.find? fun w => decide (w.id = it.wishlist_id)).map
        fun w => (w.id, w.user_id)

/-- Error taxonomy (spec §7). -/
inductive Err where
  | NotFound
  | Forbidden
  | Conflict
  | InvalidArgument
deriving DecidableEq

/-- `notify_split_participants(...)` (part_006 lines 380-405): one
notification per participant row of the split, optionally excluding one
user. -/
def notify_split_participants (db : DB) (sc_id : Nat) (ntype : NotificationType)
    (actor : Nat) (exclude : Option Nat) (item_id wishlist_id : Option Nat) :
    List Notification :=
  (db.participants.filter fun p =>
      decide (p.split_claim_id = sc_id) &&
        (match exclude with
         | none => true
         | some e => decide (p.user_id ≠ e))).map
    fun p =>
      { user_id := p.user_id, ntype := ntype, actor_id := some actor,
        item_id := item_id, wishlist_id := wishlist_id, split_claim_id := some sc_id }

/-- Recipient computation of `create_split_initiated_notification`
(part_006 lines 445-465): the other end of every accepted friendship row of
the initiator, filtered by `friend_id != wishlist_owner_id` — a comparison
with a NULL owner (missing item/wishlist) is never true, so no row passes. -/
def split_initiated_recipients (db : DB) (initiator : Nat) (owner? : Option Nat) :
    List Nat :=
  ((db.friendships.filter fun f =>
      decide (f.status = FriendStatus.accepted) &&
        (decide (f.requester_id = initiator) || decide (f.addressee_id = initiator))).map
    fun f => if decide (f.requester_id = initiator) then f.addressee_id else f.requester_id).filter
    fun fid => optNeNat (some fid) owner?

/-- `create_split_initiated_notification()` (part_006 lines 429-469, trigger
`on_split_claim_initiated` AFTER INSERT ON split_claims): the notification
rows inserted for a freshly initiated split claim. -/
def create_split_initiated_notification (db : DB) (sc : SplitClaim) : List Notification :=
  let info? := get_split_claim_item_info db sc.item_id
  (split_initiated_recipients db sc.initiated_by (info?.map (·.2))).map
    fun fid =>
      { user_id := fid, ntype := .split_initiated, actor_id := some sc.initiated_by,
        item_id := some sc.item_id, wishlist_id := info?.map (·.1),
        split_claim_id := some sc.id }

/-- `COUNT(*) FROM split_claim_participants WHERE split_claim_id = _`. -/
def participantCount (db : DB) (sc_id : Nat) : Nat :=
  (db.participants.filter fun p => decide (p.split_claim_id = sc_id)).length

/-- `create_split_joined_notification()` (part_006 lines 472-510, trigger
`on_split_participant_joined` AFTER INSERT ON split_claim_participants):
the notification rows it inserts — none for the initiator's auto-add,
otherwise one per participant except the joiner.  The FK on `split_claim_participants.split_claim_id` guarantees
the split row exists when the trigger fires. -/
def create_split_joined_notification (db : DB) (sc_id user_id : Nat) : List Notification :=
  match db.split_claims.find? fun s => decide (s.id = sc_id) with
  | none => []
  | some sc =>
    if decide (sc.initiated_by = user_id) then []
    else
      notify_split_participants db sc_id NotificationType.split_joined user_id
        (some user_id) (some sc.item_id) ((get_split_claim_item_info db sc.item_id).map (·.1))

/-- `create_split_confirmed_notification()` (part_006 lines 559-585, trigger
`on_split_claim_confirmed` AFTER UPDATE ON split_claims, firing on the
pending→confirmed update): one notification per participant, no
exclusions. -/
def split_confirmed_notifications (db : DB) (sc : SplitClaim) : List Notification :=
  notify_split_participants db sc.id NotificationType.split_confirmed sc.initiated_by
    none (some sc.item_id) ((get_split_claim_item_info db sc.item_id).map (·.1))

/-- The `UPDATE split_claims SET status = 'confirmed', confirmed_at = NOW()`
of `check_split_claim_completion`. -/
def confirmSplit (db : DB) (sc_id : Nat) : DB :=
  { db with split_claims := db.split_claims.map fun s =>
      if decide (s.id = sc_id) then { s with status := .confirmed, confirmed_at := some db.now }
      else s }

/-- `check_split_claim_completion()` (part_006 lines 350-378, trigger AFTER
INSERT ON split_claim_participants): recount participants, auto-confirm when
the count reaches the target while the split is still pending.  The
confirmation update fires `on_split_claim_confirmed`
(`create_split_confirmed_notification`, part_006 lines 559-585): notify all
participants, no exclusions. -/
def check_split_claim_completion (db : DB) (sc_id : Nat) : DB :=
  match db.split_claims.find? fun s => decide (s.id = sc_id) with
  | none => db
  | some sc =>
    if participantCount db sc_id ≥ sc.target_participants ∧ sc.status = SplitStatus.pending then
      let db' := confirmSplit db sc_id
      { db' with notifications := split_confirmed_notifications db' sc ++ db'.notifications }
    else db

/-- `createSoloClaim(itemId, claimerId)`: an INSERT into `item_claims`,
guarded by RLS policy "Users can claim items on viewable wishlists"
(part_006 lines 802-815: claimer must not be the wishlist owner and must be
able to view the wishlist), the BEFORE INSERT trigger
`prevent_solo_on_split_item` (part_006 lines 20-28: raises if ANY
`split_claims` row exists for the item, regardless of status), and the
partial unique index `idx_item_claims_item_id_active` (migration 20251230:
at most one `status = 'active'` row per item).  Every failure surfaces as
`Conflict` (spec §4.2/§7: constraint violations are the authoritative
conflict signal). -/
def createSoloClaim (db : DB) (item_id claimer_id : Nat) : Except Err DB :=
  match itemWishlist db item_id with
  | none => .error .Conflict
  | some wid =>
    match db.wishlists.find? fun w => decide (w.id = wid) with
    | none => .error .Conflict
    | some w =>
      if decide (w.user_id = claimer_id) then .error .Conflict
      else if !can_view_wishlist db wid claimer_id then .error .Conflict
      else if db.split_claims.any fun s => decide (s.item_id = item_id) then .error .Conflict
      else if db.item_claims.any fun c =>
          decide (c.item_id = item_id) && decide (c.status = ClaimStatus.active) then
        .error .Conflict
      else
        .ok { db with
          item_claims :=
            { id := db.nextId, item_id := item_id, claimed_by := claimer_id,
              status := .active, fulfilled_at := none } :: db.item_claims,
          nextId := db.nextId + 1 }

/-- Modelled from the spec: `cancelSoloClaim(claimId, callerId)` — the
update path that sets a solo claim to `cancelled` lives in the application
layer, which is not among the provided source files (src holds only the
delete policy and the partial-unique index this path relies on).  Spec §4.2:
"only the claimer may cancel; transitions active→cancelled; does not delete
the row (history retained)". -/
def cancelSoloClaim (db : DB) (claim_id caller_id : Nat) : Except Err DB :=
  match db.item_claims.find? fun c => decide (c.id = claim_id) with
  | none => .error .NotFound
  | some c =>
    if !decide (c.claimed_by = caller_id) then .error .Forbidden
    else if !decide (c.status = ClaimStatus.active) then .error .Conflict
    else
      .ok { db with
        item_claims := db.item_claims.map fun x =>
          if decide (x.id = claim_id) then { x with status := .cancelled } else x }

/-- The new `split_claims` row an `initiateSplit` inserts. -/
def newSplitClaim (db : DB) (item_id initiator_id target : Nat) : SplitClaim :=
  { id := db.nextId, item_id := item_id, initiated_by := initiator_id,
    target_participants := target, status := .pending, claim_status := .active,
    confirmed_at := none, fulfilled_at := none }

/-- The state of `initiateSplit` after the split insert, its fan-out, and
the initiator auto-add — everything before the completion check. -/
def initiateSplitBase (db : DB) (item_id initiator_id target : Nat) : DB :=
  let sc := newSplitClaim db item_id initiator_id target
  let db1 : DB := { db with split_claims := sc :: db.split_claims, nextId := db.nextId + 1 }
  let db2 : DB := { db1 with
    notifications := create_split_initiated_notification db1 sc ++ db1.notifications }
  let db3 : DB := { db2 with
    participants := { split_claim_id := sc.id, user_id := initiator_id } :: db2.participants }
  { db3 with
    notifications := create_split_joined_notification db3 sc.id initiator_id ++ db3.notifications }

/-- The committed transaction state of a successful `initiateSplit`: the
new pending split row (id drawn from the supply), its `split_initiated`
fan-out, the initiator auto-added as first participant (whose
joined-notification trigger skips the initiator), and the completion check
run by the participant-insert trigger. -/
def initiateSplitState (db : DB) (item_id initiator_id target : Nat) : DB :=
  let sc : SplitClaim :=
    { id := db.nextId, item_id := item_id, initiated_by := initiator_id,
      target_participants := target, status := .pending, claim_status := .active,
      confirmed_at := none, fulfilled_at := none }
  let db1 : DB := { db with split_claims := sc :: db.split_claims, nextId := db.nextId + 1 }
  let db2 : DB := { db1 with
    notifications := create_split_initiated_notification db1 sc ++ db1.notifications }
  let db3 : DB := { db2 with
    participants := { split_claim_id := sc.id, user_id := initiator_id } :: db2.participants }
  let db4 : DB :=
    { db3 with notifications := create_split_joined_notification db3 sc.id initiator_id ++ db3.notifications }
  check_split_claim_completion db4 sc.id

/-- `initiateSplit(itemId, initiatorId, targetParticipants)`: an INSERT into
`split_claims` guarded by RLS policy "Users can initiate split claims on
viewable wishlists" (part_006 lines 917-930), the BEFORE INSERT trigger
`prevent_split_on_claimed_item` (part_006 lines 31-39: raises if ANY
`item_claims` row exists for the item), and the partial unique index
`idx_split_claims_item_id_active` (migration 20251230).  The
`targetParticipants ≥ 2` check and the initiator auto-add as first
participant are modelled from the spec (§4.3) — the base table CHECK and the
orchestrating server action are not among the provided source files.  The
insert fires `on_split_claim_initiated`; the auto-add fires the participant
triggers, where the joined-notification is skipped for the initiator and the
completion check finds 1 < 2 ≤ target. -/
def initiateSplit (db : DB) (item_id initiator_id target : Nat) : Except Err DB :=
  if target < 2 then .error .InvalidArgument
  else
    match itemWishlist db item_id with
    | none => .error .Conflict
    | some wid =>
      match db.wishlists.find? fun w => decide (w.id = wid) with
      | none => .error .Conflict
      | some w =>
        if decide (w.user_id = initiator_id) then .error .Conflict
        else if !can_view_wishlist db wid initiator_id then .error .Conflict
        else if db.item_claims.any fun c => decide (c.item_id = item_id) then .error .Conflict
        else if db.split_claims.any fun s =>
            decide (s.item_id = item_id) && decide (s.claim_status = ClaimStatus.active) then
          .error .Conflict
        else .ok (initiateSplitState db item_id initiator_id target)

/-- The state of `joinSplit` after the participant insert and its fan-out —
everything before the completion check. -/
def joinSplitBase (db : DB) (sc_id user_id : Nat) : DB :=
  let db1 : DB :=
    { db with participants := { split_claim_id := sc_id, user_id := user_id } :: db.participants }
  { db1 with
    notifications := create_split_joined_notification db1 sc_id user_id ++ db1.notifications }

/-- The committed transaction state of a successful `joinSplit`: the new
participant row, the `split_joined` fan-out, and the completion check run by
the participant-insert trigger. -/
def joinSplitState (db : DB) (sc_id user_id : Nat) : DB :=
  let db1 : DB :=
    { db with participants := { split_claim_id := sc_id, user_id := user_id } :: db.participants }
  let db2 : DB :=
    { db1 with notifications := create_split_joined_notification db1 sc_id user_id ++ db1.notifications }
  check_split_claim_completion db2 sc_id

/-- `joinSplit(splitClaimId, userId)`: an INSERT into
`split_claim_participants` guarded by RLS policy "Users can join split
claims" (part_006 lines 963-978: joiner is not the wishlist owner, can view
the wishlist, and the split is still `pending`).  The primary key
`(split_claim_id, user_id)` that makes re-joining a conflict is modelled
from the spec (§4.3 idempotency) — the base table DDL is not among the
provided source files.  The insert fires `on_split_participant_joined` and
`check_split_claim_completion`. -/
def joinSplit (db : DB) (sc_id user_id : Nat) : Except Err DB :=
  match db.split_claims.find? fun s => decide (s.id = sc_id) with
  | none => .error .NotFound
  | some sc =>
    match get_split_claim_item_info db sc.item_id with
    | none => .error .Forbidden
    | some info =>
      if decide (info.2 = user_id) then .error .Forbidden
      else if !can_view_wishlist db info.1 user_id then .error .Forbidden
      else if !decide (sc.status = SplitStatus.pending) then .error .Conflict
      else if db.participants.any fun p =>
          decide (p.split_claim_id = sc_id) && decide (p.user_id = user_id) then
        .error .Conflict
      else .ok (joinSplitState db sc_id user_id)

/-- `create_split_cancelled_notification()` (part_006 lines 588-630, trigger
`on_split_claim_cancelled` BEFORE DELETE ON split_claims): when a pending
split is deleted, notify every participant except the initiator; the insert
carries a NULL `split_claim_id` because the split row is going away. -/
def split_cancelled_notifications (db : DB) (sc : SplitClaim) : List Notification :=
  if decide (sc.status = SplitStatus.pending) then
    let info? := get_split_claim_item_info db sc.item_id
    (db.participants.filter fun p =>
        decide (p.split_claim_id = sc.id) && decide (p.user_id ≠ sc.initiated_by)).map
      fun p =>
        { user_id := p.user_id, ntype := .split_cancelled, actor_id := some sc.initiated_by,
          item_id := some sc.item_id, wishlist_id := info?.map (·.1), split_claim_id := none }
  else []

/-- Deletion of one `split_claims` row: the BEFORE DELETE cancelled-trigger
runs first, then participant rows cascade (their BEFORE DELETE
left-notification trigger skips because the split row is already gone) and
notifications referencing the split cascade away (`ON DELETE CASCADE`,
part_007). -/
def deleteSplitClaim (db : DB) (sc : SplitClaim) : DB :=
  { db with
    split_claims := db.split_claims.filter fun s => !decide (s.id = sc.id),
    participants := db.participants.filter fun p => !decide (p.split_claim_id = sc.id),
    notifications := split_cancelled_notifications db sc ++
      db.notifications.filter fun n => !optEqNat n.split_claim_id (some sc.id) }

/-- The committed transaction state of a non-initiator participant leaving
a pending split: the `split_left` fan-out computed on the snapshot before
removal (none when the DELETE matches no row and so fires no trigger), then
the participant row removed. -/
def leaveParticipantState (db : DB) (sc : SplitClaim) (user_id : Nat) : DB :=
  let notifs :=
    if db.participants.any fun p =>
        decide (p.split_claim_id = sc.id) && decide (p.user_id = user_id) then
      notify_split_participants db sc.id NotificationType.split_left user_id (some user_id)
        (some sc.item_id) ((get_split_claim_item_info db sc.item_id).map (·.1))
    else []
  { db with
    participants := db.participants.filter fun p =>
      !(decide (p.split_claim_id = sc.id) && decide (p.user_id = user_id)),
    notifications := notifs ++ db.notifications }

/-- `leaveSplit(splitClaimId, userId)`: the initiator leaving deletes the
whole pending split (RLS "Initiator can delete pending split claim",
part_006 lines 939-943); a non-initiator participant's row is deleted (RLS
"Users can leave pending split claims", part_006 lines 980-991), firing
`on_split_participant_left` (`create_split_left_notification`, part_006
lines 512-556) on the snapshot taken before removal, excluding the leaver.
The DELETE affects zero rows — and fires no trigger — when the caller is not
a participant. -/
def leaveSplit (db : DB) (sc_id user_id : Nat) : Except Err DB :=
  match db.split_claims.find? fun s => decide (s.id = sc_id) with
  | none => .error .NotFound
  | some sc =>
    if decide (sc.initiated_by = user_id) then
      if !decide (sc.status = SplitStatus.pending) then .error .Conflict
      else .ok (deleteSplitClaim db sc)
    else
      if !decide (sc.status = SplitStatus.pending) then .error .Conflict
      else .ok (leaveParticipantState db sc user_id)

/-- Which kind of claim was fulfilled (the `claim_type` result column of
`fulfill_claims_for_item`). -/
inductive FulfilledKind where
  | solo
  | split
deriving DecidableEq

/-- The `'gift_received'` notification row inserted by
`fulfill_claims_for_item` (no `split_claim_id` column in that insert). -/
def gift_received_notification (recipient : Nat) (actor : Option Nat)
    (item_id : Nat) (wishlist_id : Option Nat) : Notification :=
  { user_id := recipient, ntype := .gift_received, actor_id := actor,
    item_id := some item_id, wishlist_id := wishlist_id, split_claim_id := none }

/-- `fulfill_claims_for_item(p_item_id, p_owner_id)` (migration
20251229_mark_as_received.sql lines 54-149, SECURITY DEFINER): find the
active solo claim, else the `claim_status = 'active'` split claim; mark it
fulfilled with `fulfilled_at = NOW()`; insert one `'gift_received'`
notification per affected claimer; return the claim kind, id and claimer
ids, or nothing when no active claim exists. -/
def fulfill_claims_for_item (db : DB) (item_id : Nat) (owner_id : Option Nat) :
    DB × Option (FulfilledKind × Nat × List Nat) :=
  let v_wishlist := itemWishlist db item_id
  match db.item_claims.find? fun c =>
      decide (c.item_id = item_id) && decide (c.status = ClaimStatus.active) with
  | some c =>
      ({ db with
          item_claims := db.item_claims.map fun x =>
            if decide (x.id = c.id) then { x with status := .fulfilled, fulfilled_at := some db.now }
            else x,
          notifications :=
            gift_received_notification c.claimed_by owner_id item_id v_wishlist ::
              db.notifications },
       some (.solo, c.id, [c.claimed_by]))
  | none =>
    match db.split_claims.find? fun s =>
        decide (s.item_id = item_id) && decide (s.claim_status = ClaimStatus.active) with
    | some s =>
        let pids := (db.participants.filter fun p => decide (p.split_claim_id = s.id)).map (·.user_id)
        ({ db with
            split_claims := db.split_claims.map fun x =>
              if decide (x.id = s.id) then { x with claim_status := .fulfilled, fulfilled_at := some db.now }
              else x,
            notifications :=
              pids.map (fun u => gift_received_notification u owner_id item_id v_wishlist) ++
                db.notifications },
         some (.split, s.id, pids))
    | none => (db, none)

/-- `createFlag(itemId, flaggerId)`: an INSERT into `item_ownership_flags`
guarded by RLS policy "Users can flag items on viewable wishlists"
(migration 20250102 lines 186-198) and the whole-table `UNIQUE(item_id)`
constraint (line 18 — no status scoping, so a flag of ANY status blocks).
The insert fires `trigger_notify_owner_on_flag` (lines 67-118). -/
def createFlag (db : DB) (item_id flagger_id : Nat) : Except Err DB :=
  match itemWishlist db item_id with
  | none => .error .NotFound
  | some wid =>
    match db.wishlists.find? fun w => decide (w.id = wid) with
    | none => .error .NotFound
    | some w =>
      if decide (w.user_id = flagger_id) then .error .Forbidden
      else if !can_view_wishlist db wid flagger_id then .error .Forbidden
      else if db.flags.any fun f => decide (f.item_id = item_id) then .error .Conflict
      else
        .ok { db with
          flags := { id := db.nextId, item_id := item_id, flagged_by := flagger_id,
                     status := .pending } :: db.flags,
          notifications :=
            { user_id := w.user_id, ntype := .item_flagged_already_owned,
              actor_id := some flagger_id, item_id := some item_id,
              wishlist_id := some wid, split_claim_id := none } :: db.notifications,
          nextId := db.nextId + 1 }

/-- The owner's decision on an ownership flag. -/
inductive FlagDecision where
  | confirmed
  | denied
deriving DecidableEq

/-- The terminal status a decision writes. -/
def flagStatusOf : FlagDecision → FlagStatus
  | .confirmed => .confirmed
  | .denied => .denied

/-- The committed transaction state of a successful `resolveFlag` on flag
row `fl` (whose item lives in wishlist `wid`): the status update, the
flagger notification when the flag was pending, and — when a pending flag is
confirmed — the deletion of every claim row of the item with its trigger and
cascade effects. -/
def resolveFlagState (db : DB) (fl : OwnershipFlag) (wid owner_id : Nat)
    (decision : FlagDecision) : DB :=
  let db1 : DB := { db with
    flags := db.flags.map fun f =>
      if decide (f.id = fl.id) then { f with status := flagStatusOf decision }
      else f }
  let db2 : DB :=
    if decide (fl.status = FlagStatus.pending) then
      { db1 with notifications :=
          { user_id := fl.flagged_by,
            ntype := (match decision with
              | FlagDecision.confirmed => NotificationType.flag_confirmed
              | FlagDecision.denied => NotificationType.flag_denied),
            actor_id := some owner_id, item_id := some fl.item_id,
            wishlist_id := some wid, split_claim_id := none } :: db1.notifications }
    else db1
  if fl.status = FlagStatus.pending ∧ decision = FlagDecision.confirmed then
    { db2 with
      item_claims := db2.item_claims.filter fun c => !decide (c.item_id = fl.item_id),
      split_claims := db2.split_claims.filter fun s => !decide (s.item_id = fl.item_id),
      participants := db2.participants.filter fun p =>
        !(db2.split_claims.any fun s =>
          decide (s.item_id = fl.item_id) && decide (s.id = p.split_claim_id)),
      notifications :=
        ((db2.split_claims.filter fun s => decide (s.item_id = fl.item_id)).map
          (split_cancelled_notifications db2)).flatten ++
        db2.notifications.filter fun n =>
          !(db2.split_claims.any fun s =>
            decide (s.item_id = fl.item_id) && optEqNat n.split_claim_id (some s.id)) }
  else db2

/-- `resolveFlag(flagId, ownerId, decision)`: an UPDATE of the flag row,
guarded by RLS policy "Owners can update flags on their items" (migration
20250102 lines 201-211).  The update fires, in trigger-name order,
`trigger_notify_flag_resolution` (lines 121-163, when the flag was pending)
and `trigger_ownership_flag_confirmed` (lines 45-64, when pending →
confirmed): the latter deletes ALL `item_claims` and `split_claims` rows of
the flagged item in the same transaction; deleted pending splits fire their
cancelled-notification trigger, and rows referencing deleted splits cascade
away. -/
def resolveFlag (db : DB) (flag_id owner_id : Nat) (decision : FlagDecision) :
    Except Err DB :=
  match db.flags.find? fun f => decide (f.id = flag_id) with
  | none => .error .NotFound
  | some fl =>
    match itemWishlist db fl.item_id with
    | none => .error .Forbidden
    | some wid =>
      match db.wishlists.find? fun w => decide (w.id = wid) with
      | none => .error .Forbidden
      | some w =>
        if !decide (w.user_id = owner_id) then .error .Forbidden
        else .ok (resolveFlagState db fl wid owner_id decision)

/-- `deleteFlag(flagId, flaggerId)`: a DELETE guarded by RLS policy "Users
can delete their own pending flags" (migration 20250102 lines 214-220). -/
def deleteFlag (db : DB) (flag_id caller_id : Nat) : Except Err DB :=
  match db.flags.find? fun f => decide (f.id = flag_id) with
  | none => .error .NotFound
  | some fl =>
    if decide (fl.flagged_by = caller_id) && decide (fl.status = FlagStatus.pending) then
      .ok { db with flags := db.flags.filter fun f => !decide (f.id = flag_id) }
    else .error .Forbidden

/-- RLS policy "Users can view claims on others wishlists" (part_006 lines
788-800): the solo-claim rows a given viewer can query. -/
def visibleClaims (db : DB) (viewer_id : Nat) : List ItemClaim :=
  db.item_claims.filter fun c =>
    match itemWishlist db c.item_id with
    | none => false
    | some wid =>
      match db.wishlists.find? fun w => decide (w.id = wid) with
      | none => false
      | some w => decide (w.user_id ≠ viewer_id) && can_view_wishlist db wid viewer_id

/-- One serialized transaction of the subsystem (spec §5: each external
operation is one atomic transaction). -/
inductive Step : DB → DB → Prop where
  | createSolo {db db' : DB} (item_id claimer_id : Nat)
      (h : createSoloClaim db item_id claimer_id = .ok db') : Step db db'
  | cancelSolo {db db' : DB} (claim_id caller_id : Nat)
      (h : cancelSoloClaim db claim_id caller_id = .ok db') : Step db db'
  | initiate {db db' : DB} (item_id initiator_id target : Nat)
      (h : initiateSplit db item_id initiator_id target = .ok db') : Step db db'
  | join {db db' : DB} (sc_id user_id : Nat)
      (h : joinSplit db sc_id user_id = .ok db') : Step db db'
  | leave {db db' : DB} (sc_id user_id : Nat)
      (h : leaveSplit db sc_id user_id = .ok db') : Step db db'
  | fulfill {db db' : DB} (item_id : Nat) (owner_id : Option Nat)
      (r : Option (FulfilledKind × Nat × List Nat))
      (h : fulfill_claims_for_item db item_id owner_id = (db', r)) : Step db db'
  | flagCreate {db db' : DB} (item_id flagger_id : Nat)
      (h : createFlag db item_id flagger_id = .ok db') : Step db db'
  | flagResolve {db db' : DB} (flag_id owner_id : Nat) (decision : FlagDecision)
      (h : resolveFlag db flag_id owner_id decision = .ok db') : Step db db'
  | flagDelete {db db' : DB} (flag_id caller_id : Nat)
      (h : deleteFlag db flag_id caller_id = .ok db') : Step db db'

/-- A state with no claim, participant or flag rows yet (the content of
the claim subsystem's tables when it starts; wishlists, items and
friendships are arbitrary since no modelled operation writes them). -/
def ClaimFree (db : DB) : Prop :=
  db.item_claims = [] ∧ db.split_claims = [] ∧ db.participants = [] ∧ db.flags = []

/-- `db'` is reachable from `db` by a sequence of transactions. -/
def Reachable (db db' : DB) : Prop :=
  Relation.ReflTransGen Step db db'

/-- The `status = 'active'` solo-claim rows of an item (the row set
constrained by `idx_item_claims_item_id_active`). -/
def activeSoloClaims (db : DB) (item_id : Nat) : List ItemClaim :=
  db.item_claims.filter fun c =>
    decide (c.item_id = item_id) && decide (c.status = ClaimStatus.active)

/-- The `claim_status = 'active'` split-claim rows of an item (the row set
constrained by `idx_split_claims_item_id_active`); these are exactly the
pending/confirmed splits, since cancellation deletes the row and fulfillment
sets `claim_status = 'fulfilled'`. -/
def activeSplitClaims (db : DB) (item_id : Nat) : List SplitClaim :=
  db.split_claims.filter fun s =>
    decide (s.item_id = item_id) && decide (s.claim_status = ClaimStatus.active)

/-- Spec P1: for any item, at most one of {active solo claim, active split
claim} exists. -/
def MutexInv (db : DB) : Prop :=
  ∀ item_id : Nat,
    (activeSoloClaims db item_id).length + (activeSplitClaims db item_id).length ≤ 1

/-- Id-supply well-formedness: every stored split-claim id (and every
participant's split reference) is below the id supply, split ids are
pairwise distinct, and the participant primary key `(split_claim_id,
user_id)` holds. -/
def WFids (db : DB) : Prop :=
  (∀ s ∈ db.split_claims, s.id < db.nextId) ∧
  (db.split_claims.map (·.id)).Nodup ∧
  (∀ p ∈ db.participants, p.split_claim_id < db.nextId) ∧
  (db.participants.map fun p => (p.split_claim_id, p.user_id)).Nodup ∧
  (∀ f ∈ db.flags, f.id < db.nextId) ∧
  (db.flags.map (·.id)).Nodup


/-- Concrete example database for witness instances: user 1 owns wishlist 20
(privacy `friends`) containing item 10; users 2 and 3 are accepted friends
of user 1. -/
def exDB : DB :=
  { wishlists := [{ id := 20, user_id := 1, privacy := .friends }],
    items := [{ id := 10, wishlist_id := 20 }],
    friendships := [{ requester_id := 2, addressee_id := 1, status := .accepted },
                    { requester_id := 3, addressee_id := 1, status := .accepted }],
    selected_friends := [], item_claims := [], split_claims := [],
    participants := [], flags := [], notifications := [], nextId := 100, now := 0 }


/-- `exDB` after user 2 solo-claims item 10. -/
def exDBSolo : DB :=
  { exDB with
    item_claims := [{ id := 100, item_id := 10, claimed_by := 2,
                      status := .active, fulfilled_at := none }],
    nextId := 101 }


/-- `exDB` with wishlist 20 private instead. -/
def exDBPriv : DB :=
  { exDB with wishlists := [{ id := 20, user_id := 1, privacy := .priv }] }


/-- `exDB` with a FULFILLED (non-active) split-claim row retained on item
10: the split of users 2 and 3 was fulfilled, `claim_status = 'fulfilled'`,
the row kept for history. -/
def exDBFulfilledSplit : DB :=
  { exDB with
    split_claims := [{ id := 100, item_id := 10, initiated_by := 2,
                       target_participants := 2, status := .confirmed,
                       claim_status := .fulfilled, confirmed_at := some 0,
                       fulfilled_at := some 0 }],
    participants := [{ split_claim_id := 100, user_id := 2 },
                     { split_claim_id := 100, user_id := 3 }],
    nextId := 101 }


/-- `exDB` with a resolved (denied) ownership flag on item 10. -/
def exDBFlagged : DB :=
  { exDB with flags := [{ id := 50, item_id := 10, flagged_by := 2, status := .denied }] }

/-- `exDBFlagged` after user 2 solo-claims item 10. -/
def exDBFlaggedSolo : DB :=
  { exDBFlagged with
    item_claims := [{ id := 100, item_id := 10, claimed_by := 2,
                      status := .active, fulfilled_at := none }],
    nextId := 101 }


/-- `exDB` with an active solo claim by user 2 and a pending ownership flag
by user 3, both on item 10. -/
def exDBPendingFlag : DB :=
  { exDB with
    item_claims := [{ id := 100, item_id := 10, claimed_by := 2,
                      status := .active, fulfilled_at := none }],
    flags := [{ id := 101, item_id := 10, flagged_by := 3, status := .pending }],
    nextId := 102 }


/-- `exDB` with an auto-confirmed, still `claim_status`-active split claim
of users 2 and 3 (target 2) on item 10. -/
def exDBConfirmedSplit : DB :=
  { exDB with
    split_claims := [{ id := 100, item_id := 10, initiated_by := 2,
                       target_participants := 2, status := .confirmed,
                       claim_status := .active, confirmed_at := some 0,
                       fulfilled_at := none }],
    participants := [{ split_claim_id := 100, user_id := 3 },
                     { split_claim_id := 100, user_id := 2 }],
    nextId := 101 }


/-- The friendship-graph predicate: an accepted friendship row joins `u`
and `f` in either orientation. -/
def acceptedFriend (db : DB) (u f : Nat) : Prop :=
  ∃ fr ∈ db.friendships, fr.status = FriendStatus.accepted ∧
    ((fr.requester_id = u ∧ fr.addressee_id = f) ∨
     (fr.requester_id = f ∧ fr.addressee_id = u))


/-- `exDB` with a richer friend graph: user 2 has accepted friends 1 (the
wishlist owner), 3, and 4 — user 4 is not a friend of the owner and so
cannot view wishlist 20. -/
def exDBFriends : DB :=
  { exDB with
    friendships := [{ requester_id := 2, addressee_id := 1, status := .accepted },
                    { requester_id := 2, addressee_id := 3, status := .accepted },
                    { requester_id := 4, addressee_id := 2, status := .accepted }] }

/-- `exDB` with a pending split claim by user 2 (target 2, so far only the
initiator as participant) on item 10. -/
def exDBPendingSplit : DB :=
  { exDB with
    split_claims := [{ id := 100, item_id := 10, initiated_by := 2,
                       target_participants := 2, status := .pending,
                       claim_status := .active, confirmed_at := none,
                       fulfilled_at := none }],
    participants := [{ split_claim_id := 100, user_id := 2 }],
    nextId := 101 }

/-! ## Inversion lemmas: what a committed transaction implies -/

theorem createSoloClaim_ok {db db' : DB} {item_id claimer_id : Nat}
    (h : createSoloClaim db item_id claimer_id = Except.ok db') :
    ∃ wid w,
      itemWishlist db item_id = some wid ∧
      db.wishlists.find? (fun x => decide (x.id = wid)) = some w ∧
      w.user_id ≠ claimer_id ∧
      can_view_wishlist db wid claimer_id = true ∧
      (db.split_claims.any fun s => decide (s.item_id = item_id)) = false ∧
      (db.item_claims.any fun c =>
        decide (c.item_id = item_id) && decide (c.status = ClaimStatus.active)) = false ∧
      db' = { db with
        item_claims :=
          { id := db.nextId, item_id := item_id, claimed_by := claimer_id,
            status := .active, fulfilled_at := none } :: db.item_claims,
        nextId := db.nextId + 1 } := by
  unfold createSoloClaim at h
  split at h
  · exact absurd h (by simp)
  next wid hwid =>
    split at h
    · exact absurd h (by simp)
    next w hw =>
      split at h
      · exact absurd h (by simp)
      next hown =>
        split at h
        · exact absurd h (by simp)
        next hview =>
          split at h
          · exact absurd h (by simp)
          next hsplit =>
            split at h
            · exact absurd h (by simp)
            next hsolo =>
              refine ⟨wid, w, hwid, hw, ?_, ?_, ?_, ?_, ?_⟩
              · simpa using hown
              · simpa using hview
              · simpa using hsplit
              · simpa using hsolo
              · simpa using h.symm

theorem cancelSoloClaim_ok {db db' : DB} {claim_id caller_id : Nat}
    (h : cancelSoloClaim db claim_id caller_id = Except.ok db') :
    ∃ c, db.item_claims.find? (fun x => decide (x.id = claim_id)) = some c ∧
      c.claimed_by = caller_id ∧ c.status = ClaimStatus.active ∧
      db' = { db with
        item_claims := db.item_claims.map fun x =>
          if decide (x.id = claim_id) then { x with status := .cancelled } else x } := by
  unfold cancelSoloClaim at h
  split at h
  · exact absurd h (by simp)
  next c hc =>
    split at h
    · exact absurd h (by simp)
    next hcb =>
      split at h
      · exact absurd h (by simp)
      next hst =>
        exact ⟨c, hc, by simpa using hcb, by simpa using hst, by simpa using h.symm⟩

theorem initiateSplit_ok {db db' : DB} {item_id initiator_id target : Nat}
    (h : initiateSplit db item_id initiator_id target = Except.ok db') :
    2 ≤ target ∧
    ∃ wid w,
      itemWishlist db item_id = some wid ∧
      db.wishlists.find? (fun x => decide (x.id = wid)) = some w ∧
      w.user_id ≠ initiator_id ∧
      can_view_wishlist db wid initiator_id = true ∧
      (db.item_claims.any fun c => decide (c.item_id = item_id)) = false ∧
      (db.split_claims.any fun s =>
        decide (s.item_id = item_id) && decide (s.claim_status = ClaimStatus.active)) = false ∧
      db' = initiateSplitState db item_id initiator_id target := by
  unfold initiateSplit at h
  split at h
  · exact absurd h (by simp)
  next htgt =>
    split at h
    · exact absurd h (by simp)
    next wid hwid =>
      split at h
      · exact absurd h (by simp)
      next w hw =>
        split at h
        · exact absurd h (by simp)
        next hown =>
          split at h
          · exact absurd h (by simp)
          next hview =>
            split at h
            · exact absurd h (by simp)
            next hsolo =>
              split at h
              · exact absurd h (by simp)
              next hsplit =>
                refine ⟨by omega, wid, w, hwid, hw, ?_, ?_, ?_, ?_, ?_⟩
                · simpa using hown
                · simpa using hview
                · simpa using hsolo
                · simpa using hsplit
                · simpa using h.symm

theorem joinSplit_ok {db db' : DB} {sc_id user_id : Nat}
    (h : joinSplit db sc_id user_id = Except.ok db') :
    ∃ sc info,
      db.split_claims.find? (fun s => decide (s.id = sc_id)) = some sc ∧
      get_split_claim_item_info db sc.item_id = some info ∧
      info.2 ≠ user_id ∧
      can_view_wishlist db info.1 user_id = true ∧
      sc.status = SplitStatus.pending ∧
      (db.participants.any fun p =>
        decide (p.split_claim_id = sc_id) && decide (p.user_id = user_id)) = false ∧
      db' = joinSplitState db sc_id user_id := by
  unfold joinSplit at h
  split at h
  · exact absurd h (by simp)
  next sc hsc =>
    split at h
    · exact absurd h (by simp)
    next info hinfo =>
      split at h
      · exact absurd h (by simp)
      next howner =>
        split at h
        · exact absurd h (by simp)
        next hview =>
          split at h
          · exact absurd h (by simp)
          next hpend =>
            split at h
            · exact absurd h (by simp)
            next hdup =>
              refine ⟨sc, info, hsc, hinfo, ?_, ?_, ?_, ?_, ?_⟩
              · simpa using howner
              · simpa using hview
              · simpa using hpend
              · simpa using hdup
              · simpa using h.symm

theorem leaveSplit_ok {db db' : DB} {sc_id user_id : Nat}
    (h : leaveSplit db sc_id user_id = Except.ok db') :
    ∃ sc,
      db.split_claims.find? (fun s => decide (s.id = sc_id)) = some sc ∧
      sc.status = SplitStatus.pending ∧
      ((sc.initiated_by = user_id ∧ db' = deleteSplitClaim db sc) ∨
       (sc.initiated_by ≠ user_id ∧ db' = leaveParticipantState db sc user_id)) := by
  unfold leaveSplit at h
  split at h
  · exact absurd h (by simp)
  next sc hsc =>
    split at h
    · next hinit =>
        split at h
        · exact absurd h (by simp)
        next hpend =>
          exact ⟨sc, hsc, by simpa using hpend,
            Or.inl ⟨by simpa using hinit, by simpa using h.symm⟩⟩
    · next hinit =>
        split at h
        · exact absurd h (by simp)
        next hpend =>
          exact ⟨sc, hsc, by simpa using hpend,
            Or.inr ⟨by simpa using hinit, by simpa using h.symm⟩⟩

theorem createFlag_ok {db db' : DB} {item_id flagger_id : Nat}
    (h : createFlag db item_id flagger_id = Except.ok db') :
    ∃ wid w,
      itemWishlist db item_id = some wid ∧
      db.wishlists.find? (fun x => decide (x.id = wid)) = some w ∧
      w.user_id ≠ flagger_id ∧
      can_view_wishlist db wid flagger_id = true ∧
      (db.flags.any fun f => decide (f.item_id = item_id)) = false ∧
      db' = { db with
        flags := { id := db.nextId, item_id := item_id, flagged_by := flagger_id,
                   status := .pending } :: db.flags,
        notifications :=
          { user_id := w.user_id, ntype := .item_flagged_already_owned,
            actor_id := some flagger_id, item_id := some item_id,
            wishlist_id := some wid, split_claim_id := none } :: db.notifications,
        nextId := db.nextId + 1 } := by
  unfold createFlag at h
  split at h
  · exact absurd h (by simp)
  next wid hwid =>
    split at h
    · exact absurd h (by simp)
    next w hw =>
      split at h
      · exact absurd h (by simp)
      next hown =>
        split at h
        · exact absurd h (by simp)
        next hview =>
          split at h
          · exact absurd h (by simp)
          next hdup =>
            refine ⟨wid, w, hwid, hw, ?_, ?_, ?_, ?_⟩
            · simpa using hown
            · simpa using hview
            · simpa using hdup
            · simpa using h.symm

theorem resolveFlag_ok {db db' : DB} {flag_id owner_id : Nat} {decision : FlagDecision}
    (h : resolveFlag db flag_id owner_id decision = Except.ok db') :
    ∃ fl wid w,
      db.flags.find? (fun f => decide (f.id = flag_id)) = some fl ∧
      itemWishlist db fl.item_id = some wid ∧
      db.wishlists.find? (fun x => decide (x.id = wid)) = some w ∧
      w.user_id = owner_id ∧
      db' = resolveFlagState db fl wid owner_id decision := by
  unfold resolveFlag at h
  split at h
  · exact absurd h (by simp)
  next fl hfl =>
    split at h
    · exact absurd h (by simp)
    next wid hwid =>
      split at h
      · exact absurd h (by simp)
      next w hw =>
        split at h
        · exact absurd h (by simp)
        next hown =>
          exact ⟨fl, wid, w, hfl, hwid, hw, by simpa using hown, by simpa using h.symm⟩

theorem deleteFlag_ok {db db' : DB} {flag_id caller_id : Nat}
    (h : deleteFlag db flag_id caller_id = Except.ok db') :
    ∃ fl,
      db.flags.find? (fun f => decide (f.id = flag_id)) = some fl ∧
      fl.flagged_by = caller_id ∧ fl.status = FlagStatus.pending ∧
      db' = { db with flags := db.flags.filter fun f => !decide (f.id = flag_id) } := by
  unfold deleteFlag at h
  split at h
  · exact absurd h (by simp)
  next fl hfl =>
    split at h
    · next hcond =>
        simp only [Bool.and_eq_true, decide_eq_true_eq] at hcond
        exact ⟨fl, hfl, hcond.1, hcond.2, by simpa using h.symm⟩
    · exact absurd h (by simp)


theorem length_filter_map_le {α : Type _} (l : List α) (f : α → α) (p : α → Bool)
    (hf : ∀ x ∈ l, p (f x) = true → p x = true) :
    ((l.map f).filter p).length ≤ (l.filter p).length := by
  induction l with
  | nil => simp
  | cons a t ih =>
    have ht : ((t.map f).filter p).length ≤ (t.filter p).length :=
      ih fun x hx => hf x (List.mem_cons_of_mem a hx)
    by_cases hfa : p (f a) = true
    · have hpa : p a = true := hf a (List.mem_cons_self a t) hfa
      simp [List.filter_cons, hfa, hpa]
      omega
    · have hfa' : p (f a) = false := by revert hfa; cases p (f a) <;> simp
      cases hpa : p a
      · simp [List.filter_cons, hfa', hpa]
        omega
      · simp [List.filter_cons, hfa', hpa]
        omega

theorem length_filter_map_eq {α : Type _} (l : List α) (f : α → α) (p : α → Bool)
    (hf : ∀ x ∈ l, p (f x) = p x) :
    ((l.map f).filter p).length = (l.filter p).length := by
  induction l with
  | nil => simp
  | cons a t ih =>
    have ht := ih fun x hx => hf x (List.mem_cons_of_mem a hx)
    have ha := hf a (List.mem_cons_self a t)
    cases hpa : p a
    · simp [List.filter_cons, ha, hpa, ht]
    · simp [List.filter_cons, ha, hpa, ht]

theorem length_filter_filter_le {α : Type _} (l : List α) (q p : α → Bool) :
    ((l.filter q).filter p).length ≤ (l.filter p).length := by
  have h1 : (l.filter q).Sublist l := List.filter_sublist l
  exact (h1.filter p).length_le

theorem filter_eq_nil_of_any_eq_false {α : Type _} {l : List α} {p q : α → Bool}
    (himp : ∀ x ∈ l, q x = true → p x = true)
    (h : l.any p = false) : l.filter q = [] := by
  rw [List.filter_eq_nil_iff]
  intro a ha hqa
  have := himp a ha hqa
  rw [List.any_eq_false] at h
  exact h a ha this

theorem check_completion_item_claims (db : DB) (sc_id : Nat) :
    (check_split_claim_completion db sc_id).item_claims = db.item_claims := by
  unfold check_split_claim_completion
  split
  · rfl
  · split <;> rfl

theorem check_completion_split_claims (db : DB) (sc_id : Nat) :
    (check_split_claim_completion db sc_id).split_claims = db.split_claims ∨
    (check_split_claim_completion db sc_id).split_claims =
      db.split_claims.map fun s =>
        if decide (s.id = sc_id) then { s with status := .confirmed, confirmed_at := some db.now }
        else s := by
  unfold check_split_claim_completion confirmSplit
  split
  · exact Or.inl rfl
  · split
    · exact Or.inr rfl
    · exact Or.inl rfl

theorem resolveFlagState_claims (db : DB) (fl : OwnershipFlag) (wid owner_id : Nat)
    (d : FlagDecision) :
    ((resolveFlagState db fl wid owner_id d).item_claims = db.item_claims ∧
     (resolveFlagState db fl wid owner_id d).split_claims = db.split_claims) ∨
    ((resolveFlagState db fl wid owner_id d).item_claims =
        db.item_claims.filter (fun c => !decide (c.item_id = fl.item_id)) ∧
     (resolveFlagState db fl wid owner_id d).split_claims =
        db.split_claims.filter (fun s => !decide (s.item_id = fl.item_id))) := by
  by_cases hc : fl.status = FlagStatus.pending ∧ d = FlagDecision.confirmed
  · refine Or.inr ⟨?_, ?_⟩ <;>
      · simp only [resolveFlagState]
        rw [if_pos hc]
        simp [hc.1]
  · refine Or.inl ⟨?_, ?_⟩ <;>
      · simp only [resolveFlagState]
        rw [if_neg hc]
        by_cases hp : fl.status = FlagStatus.pending <;> simp [hp]

theorem joinSplitState_item_claims (db : DB) (sc_id user_id : Nat) :
    (joinSplitState db sc_id user_id).item_claims = db.item_claims := by
  simp only [joinSplitState]
  rw [check_completion_item_claims]

theorem joinSplitState_split_claims (db : DB) (sc_id user_id : Nat) :
    (joinSplitState db sc_id user_id).split_claims = db.split_claims ∨
    (joinSplitState db sc_id user_id).split_claims =
      db.split_claims.map fun s =>
        if decide (s.id = sc_id) then { s with status := .confirmed, confirmed_at := some db.now }
        else s := by
  simp only [joinSplitState]
  rcases check_completion_split_claims _ sc_id with h | h
  · left; rw [h]
  · right; rw [h]

theorem initiateSplitState_item_claims (db : DB) (item_id initiator_id target : Nat) :
    (initiateSplitState db item_id initiator_id target).item_claims = db.item_claims := by
  simp only [initiateSplitState]
  rw [check_completion_item_claims]

theorem initiateSplitState_split_claims (db : DB) (item_id initiator_id target : Nat) :
    ∃ f : SplitClaim → SplitClaim,
      (∀ s, (f s).id = s.id ∧ (f s).item_id = s.item_id ∧ (f s).claim_status = s.claim_status) ∧
      (initiateSplitState db item_id initiator_id target).split_claims =
        ({ id := db.nextId, item_id := item_id, initiated_by := initiator_id,
           target_participants := target, status := .pending, claim_status := .active,
           confirmed_at := none, fulfilled_at := none } :: db.split_claims).map f := by
  simp only [initiateSplitState]
  rcases check_completion_split_claims _ db.nextId with h | h
  · exact ⟨id, fun s => ⟨rfl, rfl, rfl⟩, by rw [h]; simp⟩
  · refine ⟨fun s =>
      if decide (s.id = db.nextId) then { s with status := .confirmed, confirmed_at := some db.now }
      else s, fun s => ?_, by rw [h]⟩
    refine ⟨?_, ?_, ?_⟩ <;> by_cases hs : decide (s.id = db.nextId) = true <;> simp [hs]

theorem soloFilter_nil_of_any_false {l : List ItemClaim} {i : Nat}
    (h : (l.any fun c => decide (c.item_id = i) && decide (c.status = ClaimStatus.active)) = false) :
    l.filter (fun c => decide (c.item_id = i) && decide (c.status = ClaimStatus.active)) = [] :=
  filter_eq_nil_of_any_eq_false (fun _ _ hq => hq) h

theorem soloFilter_nil_of_any_item_false {l : List ItemClaim} {i : Nat}
    (h : (l.any fun c => decide (c.item_id = i)) = false) :
    l.filter (fun c => decide (c.item_id = i) && decide (c.status = ClaimStatus.active)) = [] :=
  filter_eq_nil_of_any_eq_false
    (fun x _ hq => by simp only [Bool.and_eq_true] at hq; exact hq.1) h

theorem splitFilter_nil_of_any_item_false {l : List SplitClaim} {i : Nat}
    (h : (l.any fun s => decide (s.item_id = i)) = false) :
    l.filter (fun s => decide (s.item_id = i) && decide (s.claim_status = ClaimStatus.active)) = [] :=
  filter_eq_nil_of_any_eq_false
    (fun x _ hq => by simp only [Bool.and_eq_true] at hq; exact hq.1) h

theorem splitFilter_nil_of_any_false {l : List SplitClaim} {i : Nat}
    (h : (l.any fun s => decide (s.item_id = i) && decide (s.claim_status = ClaimStatus.active)) = false) :
    l.filter (fun s => decide (s.item_id = i) && decide (s.claim_status = ClaimStatus.active)) = [] :=
  filter_eq_nil_of_any_eq_false (fun _ _ hq => hq) h

theorem mutex_preserved {db db' : DB} (h : Step db db') (hI : MutexInv db) : MutexInv db' := by
  cases h with
  | createSolo item_id claimer_id h =>
    obtain ⟨wid, w, hwid, hw, hown, hview, hsplit, hsolo, rfl⟩ := createSoloClaim_ok h
    intro j
    have hIj := hI j
    simp only [activeSoloClaims, activeSplitClaims] at hIj ⊢
    by_cases hj : j = item_id
    · subst hj
      rw [List.filter_cons]
      rw [if_pos (by simp)]
      rw [soloFilter_nil_of_any_false hsolo, splitFilter_nil_of_any_item_false hsplit]
      simp
    · rw [List.filter_cons, if_neg (by simp; intro hji; exact absurd hji.symm hj)]
      exact hIj
  | cancelSolo claim_id caller_id h =>
    obtain ⟨c, hc, hcb, hst, rfl⟩ := cancelSoloClaim_ok h
    intro j
    have hIj := hI j
    simp only [activeSoloClaims, activeSplitClaims] at hIj ⊢
    have hle := length_filter_map_le db.item_claims
      (fun x => if decide (x.id = claim_id) then { x with status := .cancelled } else x)
      (fun x => decide (x.item_id = j) && decide (x.status = ClaimStatus.active))
      (fun x hx hp => by
        by_cases hid : decide (x.id = claim_id) = true <;> simp [hid] at hp ⊢ <;> simp [hp])
    omega
  | initiate item_id initiator_id target h =>
    obtain ⟨htgt, wid, w, hwid, hw, hown, hview, hsolo, hsplit, rfl⟩ := initiateSplit_ok h
    intro j
    have hIj := hI j
    obtain ⟨f, hf, hfs⟩ := initiateSplitState_split_claims db item_id initiator_id target
    simp only [activeSoloClaims, activeSplitClaims] at hIj ⊢
    rw [initiateSplitState_item_claims, hfs]
    have heq := length_filter_map_eq
      ({ id := db.nextId, item_id := item_id, initiated_by := initiator_id,
         target_participants := target, status := .pending, claim_status := .active,
         confirmed_at := none, fulfilled_at := none } :: db.split_claims) f
      (fun s => decide (s.item_id = j) && decide (s.claim_status = ClaimStatus.active))
      (fun x _ => by simp only [(hf x).2.1, (hf x).2.2])
    rw [heq]
    by_cases hj : j = item_id
    · subst hj
      rw [List.filter_cons]
      rw [if_pos (by simp)]
      rw [soloFilter_nil_of_any_item_false hsolo, splitFilter_nil_of_any_false hsplit]
      simp
    · rw [List.filter_cons, if_neg (by simp; intro hji; exact absurd hji.symm hj)]
      exact hIj
  | join sc_id user_id h =>
    obtain ⟨sc, info, hsc, hinfo, hou, hview, hpend, hdup, rfl⟩ := joinSplit_ok h
    intro j
    have hIj := hI j
    simp only [activeSoloClaims, activeSplitClaims] at hIj ⊢
    rw [joinSplitState_item_claims]
    rcases joinSplitState_split_claims db sc_id user_id with hs | hs
    · rw [hs]; exact hIj
    · rw [hs]
      have heq := length_filter_map_eq db.split_claims
        (fun s => if decide (s.id = sc_id) then { s with status := .confirmed, confirmed_at := some db.now } else s)
        (fun s => decide (s.item_id = j) && decide (s.claim_status = ClaimStatus.active))
        (fun x _ => by by_cases hid : decide (x.id = sc_id) = true <;> simp [hid])
      rw [heq]
      exact hIj
  | leave sc_id user_id h =>
    obtain ⟨sc, hsc, hpend, hcase⟩ := leaveSplit_ok h
    rcases hcase with ⟨hini, rfl⟩ | ⟨hini, rfl⟩
    · intro j
      have hIj := hI j
      simp only [activeSoloClaims, activeSplitClaims, deleteSplitClaim] at hIj ⊢
      have hle := length_filter_filter_le db.split_claims
        (fun s => !decide (s.id = sc.id))
        (fun s => decide (s.item_id = j) && decide (s.claim_status = ClaimStatus.active))
      omega
    · intro j
      have hIj := hI j
      simp only [activeSoloClaims, activeSplitClaims, leaveParticipantState] at hIj ⊢
      exact hIj
  | fulfill item_id owner_id r h =>
    unfold fulfill_claims_for_item at h
    split at h
    · next c hc =>
      simp only [Prod.mk.injEq] at h
      obtain ⟨hdb, hr⟩ := h
      subst hdb
      intro j
      have hIj := hI j
      simp only [activeSoloClaims, activeSplitClaims] at hIj ⊢
      have hle := length_filter_map_le db.item_claims
        (fun x => if decide (x.id = c.id) then { x with status := .fulfilled, fulfilled_at := some db.now } else x)
        (fun x => decide (x.item_id = j) && decide (x.status = ClaimStatus.active))
        (fun x hx hp => by
          by_cases hid : decide (x.id = c.id) = true <;> simp [hid] at hp ⊢ <;> simp [hp])
      omega
    · split at h
      · next sp hs =>
        simp only [Prod.mk.injEq] at h
        obtain ⟨hdb, hr⟩ := h
        subst hdb
        intro j
        have hIj := hI j
        simp only [activeSoloClaims, activeSplitClaims] at hIj ⊢
        have hle := length_filter_map_le db.split_claims
          (fun x => if decide (x.id = sp.id) then { x with claim_status := .fulfilled, fulfilled_at := some db.now } else x)
          (fun x => decide (x.item_id = j) && decide (x.claim_status = ClaimStatus.active))
          (fun x hx hp => by
            by_cases hid : decide (x.id = sp.id) = true <;> simp [hid] at hp ⊢ <;> simp [hp])
        omega
      · simp only [Prod.mk.injEq] at h
        obtain ⟨hdb, hr⟩ := h
        subst hdb
        exact hI
  | flagCreate item_id flagger_id h =>
    obtain ⟨wid, w, hwid, hw, hown, hview, hdup, rfl⟩ := createFlag_ok h
    intro j
    exact hI j
  | flagResolve flag_id owner_id decision h =>
    obtain ⟨fl, wid, w, hfl, hwid, hw, hown, rfl⟩ := resolveFlag_ok h
    intro j
    have hIj := hI j
    simp only [activeSoloClaims, activeSplitClaims] at hIj ⊢
    rcases resolveFlagState_claims db fl wid owner_id decision with ⟨h1, h2⟩ | ⟨h1, h2⟩
    · rw [h1, h2]; exact hIj
    · rw [h1, h2]
      have hle1 := length_filter_filter_le db.item_claims
        (fun c => !decide (c.item_id = fl.item_id))
        (fun c => decide (c.item_id = j) && decide (c.status = ClaimStatus.active))
      have hle2 := length_filter_filter_le db.split_claims
        (fun s => !decide (s.item_id = fl.item_id))
        (fun s => decide (s.item_id = j) && decide (s.claim_status = ClaimStatus.active))
      omega
  | flagDelete flag_id caller_id h =>
    obtain ⟨fl, hfl, hfb, hst, rfl⟩ := deleteFlag_ok h
    intro j
    exact hI j

theorem check_completion_participants (db : DB) (sc_id : Nat) :
    (check_split_claim_completion db sc_id).participants = db.participants := by
  unfold check_split_claim_completion
  split
  · rfl
  · split <;> rfl

theorem check_completion_nextId (db : DB) (sc_id : Nat) :
    (check_split_claim_completion db sc_id).nextId = db.nextId := by
  unfold check_split_claim_completion
  split
  · rfl
  · split <;> rfl

theorem check_completion_flags (db : DB) (sc_id : Nat) :
    (check_split_claim_completion db sc_id).flags = db.flags := by
  unfold check_split_claim_completion
  split
  · rfl
  · split <;> rfl

theorem check_completion_split_ids (db : DB) (sc_id : Nat) :
    (check_split_claim_completion db sc_id).split_claims.map (·.id) =
      db.split_claims.map (·.id) := by
  rcases check_completion_split_claims db sc_id with h | h
  · rw [h]
  · rw [h, List.map_map]
    refine List.map_congr_left fun x _ => ?_
    by_cases hx : decide (x.id = sc_id) = true <;> simp [Function.comp, hx]

theorem joinSplitState_participants (db : DB) (sc_id user_id : Nat) :
    (joinSplitState db sc_id user_id).participants =
      { split_claim_id := sc_id, user_id := user_id } :: db.participants := by
  simp only [joinSplitState]
  rw [check_completion_participants]

theorem joinSplitState_nextId (db : DB) (sc_id user_id : Nat) :
    (joinSplitState db sc_id user_id).nextId = db.nextId := by
  simp only [joinSplitState]
  rw [check_completion_nextId]

theorem joinSplitState_flags (db : DB) (sc_id user_id : Nat) :
    (joinSplitState db sc_id user_id).flags = db.flags := by
  simp only [joinSplitState]
  rw [check_completion_flags]

theorem joinSplitState_split_ids (db : DB) (sc_id user_id : Nat) :
    (joinSplitState db sc_id user_id).split_claims.map (·.id) =
      db.split_claims.map (·.id) := by
  simp only [joinSplitState]
  rw [check_completion_split_ids]

theorem initiateSplitState_participants (db : DB) (item_id initiator_id target : Nat) :
    (initiateSplitState db item_id initiator_id target).participants =
      { split_claim_id := db.nextId, user_id := initiator_id } :: db.participants := by
  simp only [initiateSplitState]
  rw [check_completion_participants]

theorem initiateSplitState_nextId (db : DB) (item_id initiator_id target : Nat) :
    (initiateSplitState db item_id initiator_id target).nextId = db.nextId + 1 := by
  simp only [initiateSplitState]
  rw [check_completion_nextId]

theorem initiateSplitState_flags (db : DB) (item_id initiator_id target : Nat) :
    (initiateSplitState db item_id initiator_id target).flags = db.flags := by
  simp only [initiateSplitState]
  rw [check_completion_flags]

theorem initiateSplitState_split_ids (db : DB) (item_id initiator_id target : Nat) :
    (initiateSplitState db item_id initiator_id target).split_claims.map (·.id) =
      db.nextId :: db.split_claims.map (·.id) := by
  simp only [initiateSplitState]
  rw [check_completion_split_ids]
  rfl

theorem resolveFlagState_participants_sublist (db : DB) (fl : OwnershipFlag)
    (wid owner_id : Nat) (d : FlagDecision) :
    (resolveFlagState db fl wid owner_id d).participants.Sublist db.participants := by
  by_cases hc : fl.status = FlagStatus.pending ∧ d = FlagDecision.confirmed
  · simp only [resolveFlagState]
    rw [if_pos hc]
    simp only [hc.1, decide_True, if_true]
    exact List.filter_sublist _
  · simp only [resolveFlagState]
    rw [if_neg hc]
    by_cases hp : fl.status = FlagStatus.pending <;> simp [hp]

theorem resolveFlagState_nextId (db : DB) (fl : OwnershipFlag) (wid owner_id : Nat)
    (d : FlagDecision) :
    (resolveFlagState db fl wid owner_id d).nextId = db.nextId := by
  by_cases hc : fl.status = FlagStatus.pending ∧ d = FlagDecision.confirmed
  · simp only [resolveFlagState]
    rw [if_pos hc]
    simp [hc.1]
  · simp only [resolveFlagState]
    rw [if_neg hc]
    by_cases hp : fl.status = FlagStatus.pending <;> simp [hp]

theorem resolveFlagState_split_sublist (db : DB) (fl : OwnershipFlag) (wid owner_id : Nat)
    (d : FlagDecision) :
    (resolveFlagState db fl wid owner_id d).split_claims.Sublist db.split_claims := by
  rcases resolveFlagState_claims db fl wid owner_id d with ⟨h1, h2⟩ | ⟨h1, h2⟩
  · rw [h2]
  · rw [h2]; exact List.filter_sublist db.split_claims

theorem map_ids_eq {α β : Type _} {l : List α} {f : α → α} (g : α → β)
    (hf : ∀ x, g (f x) = g x) : (l.map f).map g = l.map g := by
  rw [List.map_map]
  exact List.map_congr_left fun x _ => by simp [Function.comp, hf x]

theorem lt_of_mem_split_ids {db : DB} (hb : ∀ s ∈ db.split_claims, s.id < db.nextId)
    {l : List SplitClaim} (hids : l.map (·.id) = db.split_claims.map (·.id)) :
    ∀ s ∈ l, s.id < db.nextId := by
  intro s hs
  have : s.id ∈ l.map (·.id) := List.mem_map_of_mem _ hs
  rw [hids] at this
  obtain ⟨x, hx, hxid⟩ := List.mem_map.mp this
  exact hxid ▸ hb x hx

theorem resolveFlagState_flags (db : DB) (fl : OwnershipFlag) (wid owner_id : Nat)
    (d : FlagDecision) :
    (resolveFlagState db fl wid owner_id d).flags = db.flags.map fun f =>
      if decide (f.id = fl.id) then { f with status := flagStatusOf d } else f := by
  by_cases hc : fl.status = FlagStatus.pending ∧ d = FlagDecision.confirmed
  · simp only [resolveFlagState]
    rw [if_pos hc]
    simp [hc.1]
  · simp only [resolveFlagState]
    rw [if_neg hc]
    by_cases hp : fl.status = FlagStatus.pending <;> simp [hp]

theorem wfids_preserved {db db' : DB} (h : Step db db') (hW : WFids db) : WFids db' := by
  obtain ⟨hb, hnd, hpb, hpnd, hfb, hfnd⟩ := hW
  cases h with
  | createSolo item_id claimer_id h =>
    obtain ⟨wid, w, _, _, _, _, _, _, rfl⟩ := createSoloClaim_ok h
    exact ⟨fun s hs => Nat.lt_succ_of_lt (hb s hs), hnd,
      fun p hp => Nat.lt_succ_of_lt (hpb p hp), hpnd,
      fun f hf => Nat.lt_succ_of_lt (hfb f hf), hfnd⟩
  | cancelSolo claim_id caller_id h =>
    obtain ⟨c, _, _, _, rfl⟩ := cancelSoloClaim_ok h
    exact ⟨hb, hnd, hpb, hpnd, hfb, hfnd⟩
  | initiate item_id initiator_id target h =>
    obtain ⟨htgt, wid, w, hwid, hw, hown, hview, hsolo, hsplit, rfl⟩ := initiateSplit_ok h
    obtain ⟨f, hf, hfs⟩ := initiateSplitState_split_claims db item_id initiator_id target
    refine ⟨?_, ?_, ?_, ?_, ?_, ?_⟩
    · intro s hs
      rw [initiateSplitState_nextId]
      rw [hfs] at hs
      obtain ⟨x, hx, rfl⟩ := List.mem_map.mp hs
      rw [(hf x).1]
      rcases List.mem_cons.mp hx with rfl | hx'
      · exact Nat.lt_succ_self _
      · exact Nat.lt_succ_of_lt (hb x hx')
    · rw [initiateSplitState_split_ids]
      refine List.Nodup.cons ?_ hnd
      intro hmem
      obtain ⟨x, hx, hxid⟩ := List.mem_map.mp hmem
      exact Nat.lt_irrefl _ (hxid ▸ hb x hx)
    · intro p hp
      rw [initiateSplitState_nextId]
      rw [initiateSplitState_participants] at hp
      rcases List.mem_cons.mp hp with rfl | hp'
      · exact Nat.lt_succ_self _
      · exact Nat.lt_succ_of_lt (hpb p hp')
    · rw [initiateSplitState_participants]
      simp only [List.map_cons]
      refine List.Nodup.cons ?_ hpnd
      intro hmem
      obtain ⟨x, hx, hxp⟩ := List.mem_map.mp hmem
      have : x.split_claim_id = db.nextId := congrArg Prod.fst hxp
      exact Nat.lt_irrefl _ (this ▸ hpb x hx)
    · intro fl hfl
      rw [initiateSplitState_nextId]
      rw [initiateSplitState_flags] at hfl
      exact Nat.lt_succ_of_lt (hfb fl hfl)
    · rw [initiateSplitState_flags]
      exact hfnd
  | join sc_id user_id h =>
    obtain ⟨sc, info, hsc, hinfo, hou, hview, hpend, hdup, rfl⟩ := joinSplit_ok h
    have hscmem : sc ∈ db.split_claims := List.mem_of_find?_eq_some hsc
    have hscid : sc.id = sc_id := by
      have := List.find?_some hsc
      simpa using this
    refine ⟨?_, ?_, ?_, ?_, ?_, ?_⟩
    · rw [joinSplitState_nextId]
      exact lt_of_mem_split_ids hb (joinSplitState_split_ids db sc_id user_id)
    · rw [joinSplitState_split_ids]
      exact hnd
    · intro p hp
      rw [joinSplitState_nextId]
      rw [joinSplitState_participants] at hp
      rcases List.mem_cons.mp hp with rfl | hp'
      · exact hscid ▸ hb sc hscmem
      · exact hpb p hp'
    · rw [joinSplitState_participants]
      simp only [List.map_cons]
      refine List.Nodup.cons ?_ hpnd
      intro hmem
      obtain ⟨x, hx, hxp⟩ := List.mem_map.mp hmem
      rw [List.any_eq_false] at hdup
      have := hdup x hx
      simp only [Bool.and_eq_true, decide_eq_true_eq, not_and] at this
      exact this (congrArg Prod.fst hxp) (congrArg Prod.snd hxp)
    · intro fl hfl
      rw [joinSplitState_nextId]
      rw [joinSplitState_flags] at hfl
      exact hfb fl hfl
    · rw [joinSplitState_flags]
      exact hfnd
  | leave sc_id user_id h =>
    obtain ⟨sc, hsc, hpend, hcase⟩ := leaveSplit_ok h
    rcases hcase with ⟨hini, rfl⟩ | ⟨hini, rfl⟩
    · unfold deleteSplitClaim
      refine ⟨?_, ?_, ?_, ?_, hfb, hfnd⟩
      · intro s hs
        exact hb s (List.mem_of_mem_filter hs)
      · exact List.Nodup.sublist ((List.filter_sublist _).map _) hnd
      · intro p hp
        exact hpb p (List.mem_of_mem_filter hp)
      · exact List.Nodup.sublist ((List.filter_sublist _).map _) hpnd
    · unfold leaveParticipantState
      refine ⟨hb, hnd, ?_, ?_, hfb, hfnd⟩
      · intro p hp
        exact hpb p (List.mem_of_mem_filter hp)
      · exact List.Nodup.sublist ((List.filter_sublist _).map _) hpnd
  | fulfill item_id owner_id r h =>
    unfold fulfill_claims_for_item at h
    split at h
    · next c hc =>
      simp only [Prod.mk.injEq] at h
      obtain ⟨hdb, hr⟩ := h
      subst hdb
      exact ⟨hb, hnd, hpb, hpnd, hfb, hfnd⟩
    · split at h
      · next sp hs =>
        simp only [Prod.mk.injEq] at h
        obtain ⟨hdb, hr⟩ := h
        subst hdb
        refine ⟨?_, ?_, hpb, hpnd, hfb, hfnd⟩
        · intro s hsm
          obtain ⟨x, hx, rfl⟩ := List.mem_map.mp hsm
          have hid : (if decide (x.id = sp.id) = true
              then { x with claim_status := ClaimStatus.fulfilled, fulfilled_at := some db.now }
              else x).id = x.id := by
            by_cases hxx : decide (x.id = sp.id) = true <;> simp [hxx]
          rw [hid]
          exact hb x hx
        · rw [map_ids_eq (fun s : SplitClaim => s.id) (fun x => by
            by_cases hxx : decide (x.id = sp.id) = true <;> simp [hxx])]
          exact hnd
      · simp only [Prod.mk.injEq] at h
        obtain ⟨hdb, hr⟩ := h
        subst hdb
        exact ⟨hb, hnd, hpb, hpnd, hfb, hfnd⟩
  | flagCreate item_id flagger_id h =>
    obtain ⟨wid, w, _, _, _, _, _, rfl⟩ := createFlag_ok h
    refine ⟨fun s hs => Nat.lt_succ_of_lt (hb s hs), hnd,
      fun p hp => Nat.lt_succ_of_lt (hpb p hp), hpnd, ?_, ?_⟩
    · intro fl hfl
      rcases List.mem_cons.mp hfl with rfl | hfl'
      · exact Nat.lt_succ_self _
      · exact Nat.lt_succ_of_lt (hfb fl hfl')
    · simp only [List.map_cons]
      refine List.Nodup.cons ?_ hfnd
      intro hmem
      obtain ⟨x, hx, hxid⟩ := List.mem_map.mp hmem
      exact Nat.lt_irrefl _ (hxid ▸ hfb x hx)
  | flagResolve flag_id owner_id decision h =>
    obtain ⟨fl, wid, w, hfl, hwid, hw, hown, rfl⟩ := resolveFlag_ok h
    have hsub := resolveFlagState_split_sublist db fl wid owner_id decision
    have hpsub := resolveFlagState_participants_sublist db fl wid owner_id decision
    refine ⟨?_, ?_, ?_, ?_, ?_, ?_⟩
    · intro s hs
      rw [resolveFlagState_nextId]
      exact hb s (hsub.mem hs)
    · exact List.Nodup.sublist (hsub.map _) hnd
    · intro p hp
      rw [resolveFlagState_nextId]
      exact hpb p (hpsub.mem hp)
    · exact List.Nodup.sublist (hpsub.map _) hpnd
    · intro x hx
      rw [resolveFlagState_nextId]
      rw [resolveFlagState_flags] at hx
      obtain ⟨y, hy, rfl⟩ := List.mem_map.mp hx
      have hid : (if decide (y.id = fl.id) = true
          then { y with status := flagStatusOf decision } else y).id = y.id := by
        by_cases hxx : decide (y.id = fl.id) = true <;> simp [hxx]
      rw [hid]
      exact hfb y hy
    · rw [resolveFlagState_flags]
      rw [map_ids_eq (fun f : OwnershipFlag => f.id) (fun x => by
        by_cases hxx : decide (x.id = fl.id) = true <;> simp [hxx])]
      exact hfnd
  | flagDelete flag_id caller_id h =>
    obtain ⟨fl, _, _, _, rfl⟩ := deleteFlag_ok h
    refine ⟨hb, hnd, hpb, hpnd, ?_, ?_⟩
    · intro x hx
      exact hfb x (List.mem_of_mem_filter hx)
    · exact List.Nodup.sublist ((List.filter_sublist _).map _) hfnd

theorem claimfree_mutex {db : DB} (h : ClaimFree db) : MutexInv db := by
  obtain ⟨h1, h2, _, _⟩ := h
  intro j
  simp [activeSoloClaims, activeSplitClaims, h1, h2]

theorem claimfree_wfids {db : DB} (h : ClaimFree db) : WFids db := by
  obtain ⟨h1, h2, h3, h4⟩ := h
  refine ⟨?_, ?_, ?_, ?_, ?_, ?_⟩ <;> simp [h2, h3, h4]

theorem reachable_mutex {db0 db : DB} (h0 : ClaimFree db0) (h : Reachable db0 db) :
    MutexInv db := by
  induction h with
  | refl => exact claimfree_mutex h0
  | tail hr hs ih => exact mutex_preserved hs ih

theorem reachable_wfids {db0 db : DB} (h0 : ClaimFree db0) (h : Reachable db0 db) :
    WFids db := by
  induction h with
  | refl => exact claimfree_wfids h0
  | tail hr hs ih => exact wfids_preserved hs ih

theorem check_completion_items (db : DB) (sc_id : Nat) :
    (check_split_claim_completion db sc_id).items = db.items := by
  unfold check_split_claim_completion
  split
  · rfl
  · split <;> rfl

theorem check_completion_wishlists (db : DB) (sc_id : Nat) :
    (check_split_claim_completion db sc_id).wishlists = db.wishlists := by
  unfold check_split_claim_completion
  split
  · rfl
  · split <;> rfl

theorem initiateSplitState_items (db : DB) (item_id initiator_id target : Nat) :
    (initiateSplitState db item_id initiator_id target).items = db.items := by
  simp only [initiateSplitState]
  rw [check_completion_items]

theorem initiateSplitState_wishlists (db : DB) (item_id initiator_id target : Nat) :
    (initiateSplitState db item_id initiator_id target).wishlists = db.wishlists := by
  simp only [initiateSplitState]
  rw [check_completion_wishlists]

theorem createSolo_blocked {db : DB} {item_id wid : Nat} {w : Wishlist} (v : Nat)
    (hwid : itemWishlist db item_id = some wid)
    (hw : db.wishlists.find? (fun x => decide (x.id = wid)) = some w)
    (hblock : (db.split_claims.any fun s => decide (s.item_id = item_id)) = true ∨
      (db.item_claims.any fun c =>
        decide (c.item_id = item_id) && decide (c.status = ClaimStatus.active)) = true) :
    createSoloClaim db item_id v = .error .Conflict := by
  simp only [createSoloClaim, hwid, hw]
  rcases hblock with hb | hb
  · split
    · rfl
    · split
      · rfl
      · simp [hb]
  · split
    · rfl
    · split
      · rfl
      · split
        · rfl
        · simp [hb]

theorem initiateSplit_blocked {db : DB} {item_id wid : Nat} {w : Wishlist} (v target : Nat)
    (htgt : 2 ≤ target)
    (hwid : itemWishlist db item_id = some wid)
    (hw : db.wishlists.find? (fun x => decide (x.id = wid)) = some w)
    (hblock : (db.item_claims.any fun c => decide (c.item_id = item_id)) = true ∨
      (db.split_claims.any fun s =>
        decide (s.item_id = item_id) && decide (s.claim_status = ClaimStatus.active)) = true) :
    initiateSplit db item_id v target = .error .Conflict := by
  simp only [initiateSplit, hwid, hw]
  rw [if_neg (by omega)]
  rcases hblock with hb | hb
  · split
    · rfl
    · split
      · rfl
      · simp [hb]
  · split
    · rfl
    · split
      · rfl
      · split
        · rfl
        · simp [hb]

/-- C1 -/
theorem C1_mutual_exclusion :
    (∀ db0 db : DB, ClaimFree db0 → Reachable db0 db → MutexInv db) ∧
    (∀ (db db' : DB) (item_id u : Nat), createSoloClaim db item_id u = Except.ok db' →
      (∀ v, createSoloClaim db' item_id v = Except.error Err.Conflict) ∧
      (∀ v t, 2 ≤ t → initiateSplit db' item_id v t = Except.error Err.Conflict)) ∧
    (∀ (db db' : DB) (item_id u t : Nat), initiateSplit db item_id u t = Except.ok db' →
      (∀ v, createSoloClaim db' item_id v = Except.error Err.Conflict) ∧
      (∀ v t', 2 ≤ t' → initiateSplit db' item_id v t' = Except.error Err.Conflict)) := by
  refine ⟨fun db0 db h0 h => reachable_mutex h0 h, ?_, ?_⟩
  · intro db db' item_id u h
    obtain ⟨wid, w, hwid, hw, hown, hview, hsplit, hsolo, rfl⟩ := createSoloClaim_ok h
    constructor
    · intro v
      exact createSolo_blocked v hwid hw (Or.inr (by simp))
    · intro v t ht
      exact initiateSplit_blocked v t ht hwid hw (Or.inl (by simp))
  · intro db db' item_id u t h
    obtain ⟨htgt, wid, w, hwid, hw, hown, hview, hsolo, hsplit, rfl⟩ := initiateSplit_ok h
    obtain ⟨f, hf, hfs⟩ := initiateSplitState_split_claims db item_id u t
    have hitems : itemWishlist (initiateSplitState db item_id u t) item_id = some wid := by
      unfold itemWishlist at hwid ⊢
      rw [initiateSplitState_items]
      exact hwid
    have hwl : (initiateSplitState db item_id u t).wishlists.find?
        (fun x => decide (x.id = wid)) = some w := by
      rw [initiateSplitState_wishlists]
      exact hw
    obtain ⟨hfid, hfitem, hfcs⟩ := hf ⟨db.nextId, item_id, u, t, .pending, .active, none, none⟩
    have hanysplit : ((initiateSplitState db item_id u t).split_claims.any fun s =>
        decide (s.item_id = item_id)) = true := by
      rw [hfs, List.any_eq_true]
      exact ⟨f ⟨db.nextId, item_id, u, t, .pending, .active, none, none⟩,
        List.mem_map_of_mem f (List.mem_cons_self _ _), by simp [hfitem]⟩
    have hanyactive : ((initiateSplitState db item_id u t).split_claims.any fun s =>
        decide (s.item_id = item_id) && decide (s.claim_status = ClaimStatus.active)) = true := by
      rw [hfs, List.any_eq_true]
      exact ⟨f ⟨db.nextId, item_id, u, t, .pending, .active, none, none⟩,
        List.mem_map_of_mem f (List.mem_cons_self _ _), by simp [hfitem, hfcs]⟩
    constructor
    · intro v
      exact createSolo_blocked v hitems hwl (Or.inl hanysplit)
    · intro v t' ht'
      exact initiateSplit_blocked v t' ht' hitems hwl (Or.inr hanyactive)


theorem C1_mutual_exclusion_witness :
    MutexInv exDB ∧
    createSoloClaim exDBSolo 10 3 = Except.error Err.Conflict ∧
    initiateSplit exDBSolo 10 3 2 = Except.error Err.Conflict := by
  refine ⟨C1_mutual_exclusion.1 exDB exDB ⟨rfl, rfl, rfl, rfl⟩ Relation.ReflTransGen.refl,
    (C1_mutual_exclusion.2.1 exDB exDBSolo 10 2 rfl).1 3,
    (C1_mutual_exclusion.2.1 exDB exDBSolo 10 2 rfl).2 3 2 (by omega)⟩

/-- C8: for a wishlist stored with privacy `private`, `can_view_wishlist`
returns true exactly for the owner: every other viewer is refused regardless
of friendships or selected-friends rows. -/
theorem C8_private_visibility (db : DB) (wid vid : Nat) (w : Wishlist)
    (hw : db.wishlists.find? (fun x => decide (x.id = wid)) = some w)
    (hp : w.privacy = Privacy.priv) :
    can_view_wishlist db wid vid = true ↔ vid = w.user_id := by
  unfold can_view_wishlist
  rw [hw]
  by_cases hv : w.user_id = vid
  · simp [optEqNat, hv]
  · simp [optEqNat, hv, hp]
    exact fun hh => absurd hh.symm hv

theorem are_friends_none_left (db : DB) (vid : Nat) :
    are_friends db none (some vid) = false := by
  unfold are_friends
  rw [List.any_eq_false]
  intro f hf
  simp [optEqNat]

/-- C10: `can_view_wishlist` on a wishlist id that references no stored
wishlist returns false for every viewer — the NULL record fails the owner
test, the `CASE` on NULL privacy falls to the `ELSE` arm, and
`are_friends(NULL, viewer)` finds no row. -/
theorem C10_canView_missing_wishlist (db : DB) (wid : Nat)
    (hw : db.wishlists.find? (fun x => decide (x.id = wid)) = none) :
    ∀ vid, can_view_wishlist db wid vid = false := by
  intro vid
  unfold can_view_wishlist
  rw [hw]
  simp [optEqNat, are_friends_none_left]

theorem C8_private_visibility_witness :
    can_view_wishlist exDBPriv 20 2 = false ∧ can_view_wishlist exDBPriv 20 1 = true := by
  constructor
  · have h := C8_private_visibility exDBPriv 20 2 ⟨20, 1, .priv⟩ rfl rfl
    simpa using h
  · exact (C8_private_visibility exDBPriv 20 1 ⟨20, 1, .priv⟩ rfl rfl).mpr rfl

theorem C10_canView_missing_wishlist_witness :
    can_view_wishlist exDB 99 2 = false :=
  C10_canView_missing_wishlist exDB 99 rfl 2

/-- C5 counterexample: on a state where none of the claim's failure
conditions holds — the claimer (user 3) is not the owner, can view the
wishlist, and no ACTIVE solo or split claim exists on item 10 (only a
retained fulfilled split row) — `createSoloClaim` nevertheless fails with
`Conflict`, because the trigger `prevent_solo_on_split_item` checks for ANY
`split_claims` row, not only active ones. -/
theorem C5_counterexample :
    createSoloClaim exDBFulfilledSplit 10 3 = Except.error Err.Conflict ∧
    itemWishlist exDBFulfilledSplit 10 = some 20 ∧
    exDBFulfilledSplit.wishlists.find? (fun x => decide (x.id = 20)) =
      some { id := 20, user_id := 1, privacy := .friends } ∧
    (1 : Nat) ≠ 3 ∧
    can_view_wishlist exDBFulfilledSplit 20 3 = true ∧
    activeSoloClaims exDBFulfilledSplit 10 = [] ∧
    activeSplitClaims exDBFulfilledSplit 10 = [] :=
  ⟨by rfl, rfl, rfl, by decide, by rfl, by decide, by decide⟩

/-- C5 amended: `createSoloClaim(itemId, claimerId)` fails with `Conflict`
iff the item owner is the claimer, the claimer cannot view the wishlist, ANY
split-claim row (of any status) exists for the item, or an active solo claim
exists; in every other case it inserts a claim with status `active`. -/
theorem C5_createSoloClaim_characterization (db : DB) (item_id claimer_id wid : Nat)
    (w : Wishlist)
    (hwid : itemWishlist db item_id = some wid)
    (hw : db.wishlists.find? (fun x => decide (x.id = wid)) = some w) :
    if w.user_id = claimer_id ∨ can_view_wishlist db wid claimer_id = false ∨
        (∃ s ∈ db.split_claims, s.item_id = item_id) ∨
        (∃ c ∈ db.item_claims, c.item_id = item_id ∧ c.status = ClaimStatus.active)
    then createSoloClaim db item_id claimer_id = Except.error Err.Conflict
    else createSoloClaim db item_id claimer_id = Except.ok { db with
      item_claims := { id := db.nextId, item_id := item_id, claimed_by := claimer_id,
                       status := ClaimStatus.active, fulfilled_at := none } :: db.item_claims,
      nextId := db.nextId + 1 } := by
  split
  · next hcond =>
    unfold createSoloClaim
    simp only [hwid, hw]
    split
    · rfl
    next h1 =>
      split
      · rfl
      next h2 =>
        split
        · rfl
        next h3 =>
          split
          · rfl
          next h4 =>
            exfalso
            simp only [decide_eq_true_eq] at h1
            simp only [Bool.not_eq_true, Bool.not_eq_false] at h2
            simp only [Bool.not_eq_true, List.any_eq_false, decide_eq_true_eq] at h3
            simp only [Bool.not_eq_true, List.any_eq_false, Bool.and_eq_true,
              decide_eq_true_eq, not_and] at h4
            rcases hcond with hc | hc | hc | hc
            · exact h1 hc
            · rw [hc] at h2
              simp at h2
            · obtain ⟨x, hx, hxi⟩ := hc
              exact h3 x hx hxi
            · obtain ⟨x, hx, hxi, hxs⟩ := hc
              exact h4 x hx hxi hxs
  · next hcond =>
    push_neg at hcond
    obtain ⟨h1, h2, h3, h4⟩ := hcond
    unfold createSoloClaim
    simp only [hwid, hw]
    rw [if_neg (by simpa using fun hh => h1 hh)]
    rw [if_neg (by simp only [Bool.not_eq_true, Bool.not_eq_false]; cases hcv : can_view_wishlist db wid claimer_id; exact absurd hcv h2; rfl)]
    rw [if_neg (by simp only [Bool.not_eq_true, List.any_eq_false, decide_eq_true_eq]; intro x hx; exact fun hxi => h3 x hx hxi)]
    rw [if_neg (by
      simp only [Bool.not_eq_true, List.any_eq_false, Bool.and_eq_true, decide_eq_true_eq, not_and]
      intro x hx hxi hxs
      exact h4 x hx hxi hxs)]

theorem C5_createSoloClaim_characterization_witness :
    createSoloClaim exDB 10 2 = Except.ok exDBSolo := by
  have h := C5_createSoloClaim_characterization exDB 10 2 20 ⟨20, 1, .friends⟩ rfl rfl
  rw [if_neg (by decide)] at h
  exact h

theorem createSolo_ok_of (db1 : DB) (item_id u2 wid : Nat) (w : Wishlist)
    (hwid : itemWishlist db1 item_id = some wid)
    (hw : db1.wishlists.find? (fun x => decide (x.id = wid)) = some w)
    (hown : w.user_id ≠ u2)
    (hview : can_view_wishlist db1 wid u2 = true)
    (hsplit : (db1.split_claims.any fun s => decide (s.item_id = item_id)) = false)
    (hsolo : (db1.item_claims.any fun c =>
      decide (c.item_id = item_id) && decide (c.status = ClaimStatus.active)) = false) :
    createSoloClaim db1 item_id u2 = Except.ok { db1 with
      item_claims := ⟨db1.nextId, item_id, u2, .active, none⟩ :: db1.item_claims,
      nextId := db1.nextId + 1 } := by
  simp only [createSoloClaim, hwid, hw]
  rw [if_neg (by simpa using fun hh => hown hh)]
  rw [if_neg (by simp [hview])]
  rw [if_neg (by simp [hsplit])]
  rw [if_neg (by simp [hsolo])]

theorem mem_visibleClaims_of (db2 : DB) (viewer : Nat) (x : ItemClaim) (wid : Nat)
    (w : Wishlist)
    (hx : x ∈ db2.item_claims)
    (hwid : itemWishlist db2 x.item_id = some wid)
    (hw : db2.wishlists.find? (fun y => decide (y.id = wid)) = some w)
    (hown : w.user_id ≠ viewer)
    (hview : can_view_wishlist db2 wid viewer = true) :
    x ∈ visibleClaims db2 viewer := by
  unfold visibleClaims
  rw [List.mem_filter]
  refine ⟨hx, ?_⟩
  simp only [hwid, hw]
  simp [hview, hown]

/-- C6: on an item whose only claim rows are an active solo claim (and no
split rows), the claimer cancels, a (possibly different) eligible claimer
re-claims, and both succeed; the old row is retained with status `cancelled`
and remains queryable through the claim SELECT policy, coexisting with the
new active row thanks to the `status = 'active'` scoping of
`idx_item_claims_item_id_active`. -/
theorem C6_reclaim_after_cancel (db : DB) (claim_id item_id u u2 wid : Nat)
    (c : ItemClaim) (w : Wishlist)
    (hc : db.item_claims.find? (fun x => decide (x.id = claim_id)) = some c)
    (hcitem : c.item_id = item_id)
    (hcby : c.claimed_by = u)
    (hcact : c.status = ClaimStatus.active)
    (honly : ∀ x ∈ db.item_claims,
      x.item_id = item_id → x.status = ClaimStatus.active → x.id = claim_id)
    (hnosplit : ∀ s ∈ db.split_claims, s.item_id ≠ item_id)
    (hwid : itemWishlist db item_id = some wid)
    (hw : db.wishlists.find? (fun x => decide (x.id = wid)) = some w)
    (hown : w.user_id ≠ u2)
    (hview : can_view_wishlist db wid u2 = true) :
    ∃ db1 db2,
      cancelSoloClaim db claim_id u = Except.ok db1 ∧
      createSoloClaim db1 item_id u2 = Except.ok db2 ∧
      { c with status := ClaimStatus.cancelled } ∈ db2.item_claims ∧
      { c with status := ClaimStatus.cancelled } ∈ visibleClaims db2 u2 ∧
      (∃ cn ∈ db2.item_claims,
        cn.item_id = item_id ∧ cn.claimed_by = u2 ∧ cn.status = ClaimStatus.active) := by
  have hcid : c.id = claim_id := by simpa using List.find?_some hc
  have hcmem : c ∈ db.item_claims := List.mem_of_find?_eq_some hc
  have hcancel : cancelSoloClaim db claim_id u = Except.ok { db with
      item_claims := db.item_claims.map fun x =>
        if decide (x.id = claim_id) then { x with status := .cancelled } else x } := by
    simp only [cancelSoloClaim, hc]
    rw [if_neg (by simp [hcby])]
    rw [if_neg (by simp [hcact])]
  have hanysolo : ((db.item_claims.map fun x =>
      if decide (x.id = claim_id) then { x with status := ClaimStatus.cancelled } else x).any
      fun x => decide (x.item_id = item_id) && decide (x.status = ClaimStatus.active)) = false := by
    rw [List.any_eq_false]
    intro x hx
    obtain ⟨y, hy, rfl⟩ := List.mem_map.mp hx
    by_cases hid : decide (y.id = claim_id) = true
    · simp [hid]
    · simp only [hid, if_false, Bool.and_eq_true, decide_eq_true_eq, not_and]
      intro hyi hys
      exact absurd (honly y hy hyi hys) (by simpa using hid)
  have hanysplit : (db.split_claims.any fun s => decide (s.item_id = item_id)) = false := by
    rw [List.any_eq_false]
    intro x hx
    simpa using hnosplit x hx
  have hcreate := createSolo_ok_of { db with
      item_claims := db.item_claims.map fun x =>
        if decide (x.id = claim_id) then { x with status := .cancelled } else x }
    item_id u2 wid w hwid hw hown hview hanysplit hanysolo
  have hmemcancelled : ({ c with status := ClaimStatus.cancelled } : ItemClaim) ∈
      (db.item_claims.map fun x =>
        if decide (x.id = claim_id) then { x with status := ClaimStatus.cancelled } else x) := by
    have heq : (if decide (c.id = claim_id) then
        { c with status := ClaimStatus.cancelled } else c) =
        { c with status := ClaimStatus.cancelled } := by simp [hcid]
    exact heq ▸ List.mem_map_of_mem _ hcmem
  refine ⟨_, _, hcancel, hcreate, List.mem_cons_of_mem _ hmemcancelled, ?_, ?_⟩
  · refine mem_visibleClaims_of _ u2 _ wid w
      (List.mem_cons_of_mem _ hmemcancelled) ?_ hw hown hview
    show itemWishlist _ c.item_id = some wid
    rw [hcitem]
    exact hwid
  · exact ⟨⟨db.nextId, item_id, u2, ClaimStatus.active, none⟩,
      List.mem_cons_self _ _, rfl, rfl, rfl⟩

/-- C9: `createFlag` fails whenever the flagger owns the item, cannot view
the wishlist, or ANY flag row — pending, confirmed or denied — exists for
the item (whole-table `UNIQUE(item_id)`); and since no operation ever
removes or un-resolves a non-pending flag (`deleteFlag` is restricted to
pending flags), a resolved flag permanently blocks re-flagging. -/
theorem C9_flag_uniqueness :
    (∀ (db : DB) (item_id flagger_id wid : Nat) (w : Wishlist),
      itemWishlist db item_id = some wid →
      db.wishlists.find? (fun x => decide (x.id = wid)) = some w →
      (w.user_id = flagger_id ∨ can_view_wishlist db wid flagger_id = false ∨
        ∃ f ∈ db.flags, f.item_id = item_id) →
      ∃ e, createFlag db item_id flagger_id = Except.error e) ∧
    (∀ db db' : DB, WFids db → Step db db' → ∀ item_id : Nat,
      (∃ f ∈ db.flags, f.item_id = item_id ∧ f.status ≠ FlagStatus.pending) →
      (∃ f ∈ db'.flags, f.item_id = item_id ∧ f.status ≠ FlagStatus.pending)) ∧
    (∀ db0 db : DB, ClaimFree db0 → Reachable db0 db → WFids db) := by
  refine ⟨?_, ?_, fun db0 db h0 h => reachable_wfids h0 h⟩
  · intro db item_id flagger_id wid w hwid hw hcond
    unfold createFlag
    simp only [hwid, hw]
    split
    · exact ⟨_, rfl⟩
    next h1 =>
      split
      · exact ⟨_, rfl⟩
      next h2 =>
        split
        · exact ⟨_, rfl⟩
        next h3 =>
          exfalso
          simp only [decide_eq_true_eq] at h1
          simp only [Bool.not_eq_true, Bool.not_eq_false] at h2
          simp only [Bool.not_eq_true, List.any_eq_false, decide_eq_true_eq] at h3
          rcases hcond with hc | hc | hc
          · exact h1 hc
          · rw [hc] at h2
            simp at h2
          · obtain ⟨x, hx, hxi⟩ := hc
            exact h3 x hx hxi
  · intro db db' hW hstep item_id hex
    obtain ⟨hb, hnd, hpb, hpnd, hfb, hfnd⟩ := hW
    cases hstep with
    | createSolo a b h =>
      obtain ⟨wid, w, _, _, _, _, _, _, rfl⟩ := createSoloClaim_ok h
      exact hex
    | cancelSolo a b h =>
      obtain ⟨c, _, _, _, rfl⟩ := cancelSoloClaim_ok h
      exact hex
    | initiate a b t h =>
      obtain ⟨_, wid, w, _, _, _, _, _, _, rfl⟩ := initiateSplit_ok h
      rw [initiateSplitState_flags]
      exact hex
    | join a b h =>
      obtain ⟨sc, info, _, _, _, _, _, _, rfl⟩ := joinSplit_ok h
      rw [joinSplitState_flags]
      exact hex
    | leave a b h =>
      obtain ⟨sc, _, _, hcase⟩ := leaveSplit_ok h
      rcases hcase with ⟨_, rfl⟩ | ⟨_, rfl⟩
      · exact hex
      · exact hex
    | fulfill a b r h =>
      unfold fulfill_claims_for_item at h
      split at h
      · simp only [Prod.mk.injEq] at h
        obtain ⟨hdb, _⟩ := h
        subst hdb
        exact hex
      · split at h
        · simp only [Prod.mk.injEq] at h
          obtain ⟨hdb, _⟩ := h
          subst hdb
          exact hex
        · simp only [Prod.mk.injEq] at h
          obtain ⟨hdb, _⟩ := h
          subst hdb
          exact hex
    | flagCreate a b h =>
      obtain ⟨wid, w, _, _, _, _, _, rfl⟩ := createFlag_ok h
      obtain ⟨f, hf, hfi, hfs⟩ := hex
      exact ⟨f, List.mem_cons_of_mem _ hf, hfi, hfs⟩
    | flagResolve a b decision h =>
      obtain ⟨fl, wid, w, hfl, _, _, _, rfl⟩ := resolveFlag_ok h
      rw [resolveFlagState_flags]
      obtain ⟨f, hf, hfi, hfs⟩ := hex
      refine ⟨_, List.mem_map_of_mem _ hf, ?_, ?_⟩
      · by_cases hid : decide (f.id = fl.id) = true <;> simp [hid, hfi]
      · by_cases hid : decide (f.id = fl.id) = true
        · simp only [hid, if_true]
          cases decision <;> simp [flagStatusOf]
        · simp only [hid, Bool.false_eq_true, if_false]
          exact hfs
    | flagDelete a b h =>
      obtain ⟨fl, hfl, hflby, hflpend, rfl⟩ := deleteFlag_ok h
      obtain ⟨f, hf, hfi, hfs⟩ := hex
      refine ⟨f, ?_, hfi, hfs⟩
      rw [List.mem_filter]
      refine ⟨hf, ?_⟩
      simp only [Bool.not_eq_true']
      by_cases hid : f.id = a
      · exfalso
        have hflmem : fl ∈ db.flags := List.mem_of_find?_eq_some hfl
        have hflid : fl.id = a := by simpa using List.find?_some hfl
        have : f = fl := List.inj_on_of_nodup_map hfnd hf hflmem (by rw [hid, hflid])
        rw [this, hflpend] at hfs
        exact hfs rfl
      · simp [hid]

theorem C9_flag_uniqueness_witness :
    (∃ e, createFlag exDBFlagged 10 3 = Except.error e) ∧
    (∃ f ∈ exDBFlaggedSolo.flags, f.item_id = 10 ∧ f.status ≠ FlagStatus.pending) ∧
    WFids exDB := by
  refine ⟨?_, ?_, ?_⟩
  · exact C9_flag_uniqueness.1 exDBFlagged 10 3 20 ⟨20, 1, .friends⟩ rfl rfl
      (Or.inr (Or.inr ⟨⟨50, 10, 2, .denied⟩, by decide, rfl⟩))
  · exact C9_flag_uniqueness.2.1 exDBFlagged exDBFlaggedSolo
      (by refine ⟨?_, ?_, ?_, ?_, ?_, ?_⟩ <;> decide)
      (Step.createSolo 10 2 rfl) 10 ⟨⟨50, 10, 2, .denied⟩, by decide, rfl, by decide⟩
  · exact C9_flag_uniqueness.2.2 exDB exDB ⟨rfl, rfl, rfl, rfl⟩ Relation.ReflTransGen.refl

/-- C4: resolving a pending ownership flag with decision `confirmed` removes
every claim row — solo and split — of the flagged item in the same atomic
transaction that marks the flag confirmed; resolving with `denied` leaves
the solo claims, split claims and participants untouched. -/
theorem C4_flag_resolution (db : DB) (flag_id owner_id : Nat) (fl : OwnershipFlag)
    (wid : Nat) (w : Wishlist)
    (hfl : db.flags.find? (fun f => decide (f.id = flag_id)) = some fl)
    (hpend : fl.status = FlagStatus.pending)
    (hwid : itemWishlist db fl.item_id = some wid)
    (hw : db.wishlists.find? (fun x => decide (x.id = wid)) = some w)
    (hown : w.user_id = owner_id) :
    (∃ db', resolveFlag db flag_id owner_id FlagDecision.confirmed = Except.ok db' ∧
      (∀ c ∈ db'.item_claims, c.item_id ≠ fl.item_id) ∧
      (∀ s ∈ db'.split_claims, s.item_id ≠ fl.item_id) ∧
      ({ fl with status := FlagStatus.confirmed } : OwnershipFlag) ∈ db'.flags) ∧
    (∃ db', resolveFlag db flag_id owner_id FlagDecision.denied = Except.ok db' ∧
      db'.item_claims = db.item_claims ∧
      db'.split_claims = db.split_claims ∧
      db'.participants = db.participants ∧
      ({ fl with status := FlagStatus.denied } : OwnershipFlag) ∈ db'.flags) := by
  have hflid : fl.id = flag_id := by simpa using List.find?_some hfl
  have hflmem : fl ∈ db.flags := List.mem_of_find?_eq_some hfl
  have hres : ∀ d : FlagDecision, resolveFlag db flag_id owner_id d =
      Except.ok (resolveFlagState db fl wid owner_id d) := by
    intro d
    simp only [resolveFlag, hfl, hwid, hw]
    rw [if_neg (by simp [hown])]
  have hmemflag : ∀ d : FlagDecision,
      ({ fl with status := flagStatusOf d } : OwnershipFlag) ∈
        (resolveFlagState db fl wid owner_id d).flags := by
    intro d
    rw [resolveFlagState_flags]
    have heq : (if decide (fl.id = fl.id) then
        { fl with status := flagStatusOf d } else fl) =
        { fl with status := flagStatusOf d } := by simp
    exact heq ▸ List.mem_map_of_mem _ hflmem
  have hic : (resolveFlagState db fl wid owner_id .confirmed).item_claims =
      db.item_claims.filter (fun c => !decide (c.item_id = fl.item_id)) := by
    simp only [resolveFlagState]
    rw [if_pos ⟨hpend, trivial⟩]
    simp [hpend]
  have hsc : (resolveFlagState db fl wid owner_id .confirmed).split_claims =
      db.split_claims.filter (fun c => !decide (c.item_id = fl.item_id)) := by
    simp only [resolveFlagState]
    rw [if_pos ⟨hpend, trivial⟩]
    simp [hpend]
  constructor
  · refine ⟨_, hres .confirmed, ?_, ?_, hmemflag .confirmed⟩
    · rw [hic]
      intro c hc
      have := List.mem_filter.mp hc
      simpa using this.2
    · rw [hsc]
      intro c hc
      have := List.mem_filter.mp hc
      simpa using this.2
  · refine ⟨_, hres .denied, ?_, ?_, ?_, hmemflag .denied⟩
    · simp only [resolveFlagState]
      rw [if_neg (by simp)]
      simp [hpend]
    · simp only [resolveFlagState]
      rw [if_neg (by simp)]
      simp [hpend]
    · simp only [resolveFlagState]
      rw [if_neg (by simp)]
      simp [hpend]

theorem C4_flag_resolution_witness :
    (∃ db', resolveFlag exDBPendingFlag 101 1 FlagDecision.confirmed = Except.ok db' ∧
      (∀ c ∈ db'.item_claims, c.item_id ≠ 10) ∧
      (∀ s ∈ db'.split_claims, s.item_id ≠ 10) ∧
      ({ id := 101, item_id := 10, flagged_by := 3,
         status := FlagStatus.confirmed } : OwnershipFlag) ∈ db'.flags) ∧
    (∃ db', resolveFlag exDBPendingFlag 101 1 FlagDecision.denied = Except.ok db' ∧
      db'.item_claims = exDBPendingFlag.item_claims ∧
      db'.split_claims = exDBPendingFlag.split_claims ∧
      db'.participants = exDBPendingFlag.participants ∧
      ({ id := 101, item_id := 10, flagged_by := 3,
         status := FlagStatus.denied } : OwnershipFlag) ∈ db'.flags) :=
  C4_flag_resolution exDBPendingFlag 101 1 ⟨101, 10, 3, .pending⟩ 20 ⟨20, 1, .friends⟩
    rfl rfl rfl rfl rfl

theorem nodup_users_of_same_split (l : List Participant) (sid : Nat)
    (h : (l.map fun p => (p.split_claim_id, p.user_id)).Nodup) :
    ((l.filter fun p => decide (p.split_claim_id = sid)).map (·.user_id)).Nodup := by
  induction l with
  | nil => simp
  | cons a t ih =>
    simp only [List.map_cons, List.nodup_cons] at h
    obtain ⟨hna, ht⟩ := h
    by_cases ha : decide (a.split_claim_id = sid) = true
    · simp only [List.filter_cons, ha, if_true, List.map_cons, List.nodup_cons]
      refine ⟨?_, ih ht⟩
      intro hmem
      obtain ⟨x, hx, hxu⟩ := List.mem_map.mp hmem
      have hxf := List.mem_filter.mp hx
      apply hna
      refine List.mem_map.mpr ⟨x, hxf.1, ?_⟩
      have hxs : x.split_claim_id = sid := by simpa using hxf.2
      have has : a.split_claim_id = sid := by simpa using ha
      rw [Prod.ext_iff]
      exact ⟨by rw [hxs, has], hxu⟩
    · simp only [List.filter_cons, ha, Bool.false_eq_true, if_false]
      exact ih ht

/-- C3: `fulfill_claims_for_item` fulfils the active solo claim if one
exists (stamping `fulfilled_at`, returning the claimer, notifying only the
claimer with `gift_received`); otherwise the `claim_status = 'active'` split
claim if one exists — its participation status (pending or auto-confirmed)
is irrelevant — stamping it fulfilled, returning all participant ids and
notifying each participant exactly once and nobody else; and with no active
claim it is a no-op returning the empty result. -/
theorem C3_fulfill_claims (db : DB) (item_id : Nat) (owner_id : Option Nat) :
    (∀ c, db.item_claims.find? (fun x =>
        decide (x.item_id = item_id) && decide (x.status = ClaimStatus.active)) = some c →
      (fulfill_claims_for_item db item_id owner_id).2 =
          some (FulfilledKind.solo, c.id, [c.claimed_by]) ∧
        (∃ c' ∈ (fulfill_claims_for_item db item_id owner_id).1.item_claims,
          c'.id = c.id ∧ c'.status = ClaimStatus.fulfilled ∧ c'.fulfilled_at = some db.now) ∧
        (fulfill_claims_for_item db item_id owner_id).1.notifications =
          gift_received_notification c.claimed_by owner_id item_id (itemWishlist db item_id) ::
            db.notifications) ∧
    (db.item_claims.find? (fun x =>
        decide (x.item_id = item_id) && decide (x.status = ClaimStatus.active)) = none →
      ∀ s, db.split_claims.find? (fun x =>
          decide (x.item_id = item_id) && decide (x.claim_status = ClaimStatus.active)) = some s →
        (fulfill_claims_for_item db item_id owner_id).2 =
            some (FulfilledKind.split, s.id,
              (db.participants.filter fun p => decide (p.split_claim_id = s.id)).map (·.user_id)) ∧
          (∃ s' ∈ (fulfill_claims_for_item db item_id owner_id).1.split_claims,
            s'.id = s.id ∧ s'.claim_status = ClaimStatus.fulfilled ∧
            s'.fulfilled_at = some db.now) ∧
          (fulfill_claims_for_item db item_id owner_id).1.notifications =
            ((db.participants.filter fun p => decide (p.split_claim_id = s.id)).map (·.user_id)).map
              (fun u => gift_received_notification u owner_id item_id (itemWishlist db item_id)) ++
              db.notifications ∧
          (∀ u, u ∈ ((db.participants.filter fun p =>
              decide (p.split_claim_id = s.id)).map (·.user_id)) ↔
            ∃ p ∈ db.participants, p.split_claim_id = s.id ∧ p.user_id = u) ∧
          ((db.participants.map fun p => (p.split_claim_id, p.user_id)).Nodup →
            ((db.participants.filter fun p =>
              decide (p.split_claim_id = s.id)).map (·.user_id)).Nodup)) ∧
    (db.item_claims.find? (fun x =>
        decide (x.item_id = item_id) && decide (x.status = ClaimStatus.active)) = none →
      db.split_claims.find? (fun x =>
        decide (x.item_id = item_id) && decide (x.claim_status = ClaimStatus.active)) = none →
      fulfill_claims_for_item db item_id owner_id = (db, none)) := by
  refine ⟨?_, ?_, ?_⟩
  · intro c hc
    have hcmem : c ∈ db.item_claims := List.mem_of_find?_eq_some hc
    refine ⟨by simp only [fulfill_claims_for_item, hc], ?_, by simp only [fulfill_claims_for_item, hc]⟩
    simp only [fulfill_claims_for_item, hc]
    refine ⟨{ c with status := ClaimStatus.fulfilled, fulfilled_at := some db.now },
      ?_, rfl, rfl, rfl⟩
    have heq : (if decide (c.id = c.id) then
        { c with status := ClaimStatus.fulfilled, fulfilled_at := some db.now } else c) =
        { c with status := ClaimStatus.fulfilled, fulfilled_at := some db.now } := by simp
    exact heq ▸ List.mem_map_of_mem _ hcmem
  · intro hns s hs
    have hsmem : s ∈ db.split_claims := List.mem_of_find?_eq_some hs
    refine ⟨by simp only [fulfill_claims_for_item, hns, hs], ?_,
      by simp only [fulfill_claims_for_item, hns, hs], ?_, ?_⟩
    · simp only [fulfill_claims_for_item, hns, hs]
      refine ⟨{ s with claim_status := ClaimStatus.fulfilled, fulfilled_at := some db.now },
        ?_, rfl, rfl, rfl⟩
      have heq : (if decide (s.id = s.id) then
          { s with claim_status := ClaimStatus.fulfilled, fulfilled_at := some db.now } else s) =
          { s with claim_status := ClaimStatus.fulfilled, fulfilled_at := some db.now } := by simp
      exact heq ▸ List.mem_map_of_mem _ hsmem
    · intro u
      constructor
      · intro hu
        obtain ⟨p, hp, rfl⟩ := List.mem_map.mp hu
        have hpf := List.mem_filter.mp hp
        exact ⟨p, hpf.1, by simpa using hpf.2, rfl⟩
      · rintro ⟨p, hp, hps, rfl⟩
        exact List.mem_map_of_mem _ (List.mem_filter.mpr ⟨hp, by simpa using hps⟩)
    · intro hnd
      exact nodup_users_of_same_split db.participants s.id hnd
  · intro h1 h2
    simp only [fulfill_claims_for_item, h1, h2]

theorem C3_fulfill_claims_witness :
    ((fulfill_claims_for_item exDBSolo 10 (some 1)).2 =
      some (FulfilledKind.solo, 100, [2])) ∧
    ((fulfill_claims_for_item exDBConfirmedSplit 10 (some 1)).2 =
      some (FulfilledKind.split, 100, [3, 2])) ∧
    ((fulfill_claims_for_item exDBConfirmedSplit 10 (some 1)).1.notifications =
      [gift_received_notification 3 (some 1) 10 (some 20),
       gift_received_notification 2 (some 1) 10 (some 20)]) ∧
    (fulfill_claims_for_item exDB 10 (some 1) = (exDB, none)) := by
  refine ⟨((C3_fulfill_claims exDBSolo 10 (some 1)).1 ⟨100, 10, 2, .active, none⟩ rfl).1,
    ?_, ?_, (C3_fulfill_claims exDB 10 (some 1)).2.2 rfl rfl⟩
  · exact ((C3_fulfill_claims exDBConfirmedSplit 10 (some 1)).2.1 rfl
      ⟨100, 10, 2, 2, .confirmed, .active, some 0, none⟩ rfl).1
  · exact ((C3_fulfill_claims exDBConfirmedSplit 10 (some 1)).2.1 rfl
      ⟨100, 10, 2, 2, .confirmed, .active, some 0, none⟩ rfl).2.2.1

theorem mem_split_initiated_recipients (db : DB) (initiator owner f : Nat) :
    f ∈ split_initiated_recipients db initiator (some owner) ↔
      (acceptedFriend db initiator f ∧ f ≠ owner) := by
  unfold split_initiated_recipients acceptedFriend
  constructor
  · intro hf
    obtain ⟨hf1, hf2⟩ := List.mem_filter.mp hf
    obtain ⟨fr, hfr, rfl⟩ := List.mem_map.mp hf1
    obtain ⟨hfrmem, hfrcond⟩ := List.mem_filter.mp hfr
    simp only [Bool.and_eq_true, Bool.or_eq_true, decide_eq_true_eq] at hfrcond
    refine ⟨⟨fr, hfrmem, hfrcond.1, ?_⟩, by simpa [optNeNat] using hf2⟩
    by_cases hreq : fr.requester_id = initiator
    · exact Or.inl ⟨hreq, by simp [hreq]⟩
    · have haddr : fr.addressee_id = initiator := hfrcond.2.resolve_left hreq
      exact Or.inr ⟨by simp [hreq], haddr⟩
  · rintro ⟨⟨fr, hfrmem, hacc, hcase⟩, hne⟩
    refine List.mem_filter.mpr ⟨?_, by simpa [optNeNat] using hne⟩
    refine List.mem_map.mpr ⟨fr, ?_, ?_⟩
    · refine List.mem_filter.mpr ⟨hfrmem, ?_⟩
      simp only [Bool.and_eq_true, Bool.or_eq_true, decide_eq_true_eq]
      rcases hcase with ⟨h1, h2⟩ | ⟨h1, h2⟩
      · exact ⟨hacc, Or.inl h1⟩
      · exact ⟨hacc, Or.inr h2⟩
    · rcases hcase with ⟨h1, h2⟩ | ⟨h1, h2⟩
      · simp [h1, h2]
      · by_cases hreq : fr.requester_id = initiator
        · rw [if_pos (by simp [hreq])]
          rw [h2, ← h1, hreq]
        · rw [if_neg (by simp [hreq])]
          exact h1

theorem initiateSplitState_eq (db : DB) (i u t : Nat) :
    initiateSplitState db i u t =
      check_split_claim_completion (initiateSplitBase db i u t) db.nextId := rfl

theorem check_completion_no_confirm (db : DB) (sc_id : Nat) (sc : SplitClaim)
    (hfind : db.split_claims.find? (fun s => decide (s.id = sc_id)) = some sc)
    (hlt : participantCount db sc_id < sc.target_participants) :
    check_split_claim_completion db sc_id = db := by
  unfold check_split_claim_completion
  rw [hfind]
  show (if _ ∧ _ then _ else db) = db
  rw [if_neg (by intro hcond; omega)]

theorem joined_notification_initiator (db : DB) (sc_id user_id : Nat) (sc : SplitClaim)
    (hfind : db.split_claims.find? (fun s => decide (s.id = sc_id)) = some sc)
    (hinit : sc.initiated_by = user_id) :
    create_split_joined_notification db sc_id user_id = [] := by
  unfold create_split_joined_notification
  rw [hfind]
  simp [hinit]

theorem initiateSplitBase_notifications (db : DB) (i u t : Nat) :
    (initiateSplitBase db i u t).notifications =
      create_split_initiated_notification
        { db with
          split_claims := newSplitClaim db i u t :: db.split_claims,
          nextId := db.nextId + 1 }
        (newSplitClaim db i u t) ++ db.notifications := by
  simp only [initiateSplitBase]
  rw [joined_notification_initiator _ _ u (newSplitClaim db i u t)
    (List.find?_cons_of_pos _ (by simp)) rfl]
  simp

theorem initiateSplitBase_count (db : DB) (i u t : Nat)
    (hWFp : ∀ p ∈ db.participants, p.split_claim_id < db.nextId) :
    participantCount (initiateSplitBase db i u t) db.nextId = 1 := by
  show (List.filter _
    (({ split_claim_id := db.nextId, user_id := u } : Participant) :: db.participants)).length = 1
  rw [List.filter_cons]
  rw [if_pos (by simp)]
  rw [filter_eq_nil_of_any_eq_false (fun x _ hq => hq) (by
    rw [List.any_eq_false]
    intro p hp
    simp only [decide_eq_true_eq]
    exact Nat.ne_of_lt (hWFp p hp))]
  rfl

theorem initiateSplitState_notifications (db : DB) (i u t : Nat) (htgt : 2 ≤ t)
    (hWFp : ∀ p ∈ db.participants, p.split_claim_id < db.nextId) :
    (initiateSplitState db i u t).notifications =
      create_split_initiated_notification
        { db with
          split_claims := newSplitClaim db i u t :: db.split_claims,
          nextId := db.nextId + 1 }
        (newSplitClaim db i u t) ++ db.notifications := by
  rw [initiateSplitState_eq]
  rw [check_completion_no_confirm _ _ (newSplitClaim db i u t)
    (List.find?_cons_of_pos _ (by simp [newSplitClaim]))
    (by rw [initiateSplitBase_count db i u t hWFp]; show 1 < t; omega)]
  exact initiateSplitBase_notifications db i u t

theorem initiated_notifs_map (db : DB) (i u t wid owner : Nat)
    (hinfo : get_split_claim_item_info db i = some (wid, owner)) :
    create_split_initiated_notification
      { db with
        split_claims := newSplitClaim db i u t :: db.split_claims,
        nextId := db.nextId + 1 }
      (newSplitClaim db i u t) =
      (split_initiated_recipients db u (some owner)).map (fun fid =>
        ({ user_id := fid, ntype := .split_initiated, actor_id := some u,
           item_id := some i, wishlist_id := some wid,
           split_claim_id := some db.nextId } : Notification)) := by
  unfold create_split_initiated_notification
  have h1 : get_split_claim_item_info
      { db with
        split_claims := newSplitClaim db i u t :: db.split_claims,
        nextId := db.nextId + 1 }
      (newSplitClaim db i u t).item_id = some (wid, owner) := hinfo
  rw [h1]
  rfl

/-- C7: a committed `initiateSplit` inserts `split_initiated` notifications
for exactly the initiator's accepted friends other than the wishlist owner —
visibility is never consulted, so friends who cannot view the wishlist are
included — one row per recipient (given distinct friendship edges), and the
owner receives none. -/
theorem C7_split_initiated_notifications (db db' : DB)
    (item_id initiator_id target wid : Nat) (w : Wishlist)
    (h : initiateSplit db item_id initiator_id target = Except.ok db')
    (hWFp : ∀ p ∈ db.participants, p.split_claim_id < db.nextId)
    (hwid : itemWishlist db item_id = some wid)
    (hw : db.wishlists.find? (fun x => decide (x.id = wid)) = some w) :
    db'.notifications =
      (split_initiated_recipients db initiator_id (some w.user_id)).map
        (fun fid => ({ user_id := fid,
                       ntype := NotificationType.split_initiated,
                       actor_id := some initiator_id,
                       item_id := some item_id,
                       wishlist_id := some wid,
                       split_claim_id := some db.nextId } : Notification)) ++
      db.notifications ∧
    (∀ f, f ∈ split_initiated_recipients db initiator_id (some w.user_id) ↔
      (acceptedFriend db initiator_id f ∧ f ≠ w.user_id)) ∧
    w.user_id ∉ split_initiated_recipients db initiator_id (some w.user_id) ∧
    (((db.friendships.filter fun fr => decide (fr.status = FriendStatus.accepted) &&
        (decide (fr.requester_id = initiator_id) || decide (fr.addressee_id = initiator_id))).map
        (fun fr => if decide (fr.requester_id = initiator_id) then fr.addressee_id
         else fr.requester_id)).Nodup →
      (split_initiated_recipients db initiator_id (some w.user_id)).Nodup) := by
  obtain ⟨htgt, wid1, w1, hwid1, hw1, hown1, hview1, hsolo1, hsplit1, rfl⟩ := initiateSplit_ok h
  obtain rfl : wid1 = wid := by simpa using hwid1.symm.trans hwid
  obtain rfl : w1 = w := by simpa using hw1.symm.trans hw
  have hwidw : w1.id = wid1 := by simpa using List.find?_some hw1
  have hinfo : get_split_claim_item_info db item_id = some (wid1, w1.user_id) := by
    unfold itemWishlist at hwid1
    unfold get_split_claim_item_info
    cases hfind : db.items.find? (fun x => decide (x.id = item_id)) with
    | none => rw [hfind] at hwid1; simp at hwid1
    | some it =>
      rw [hfind] at hwid1
      have hitw : it.wishlist_id = wid1 := by simpa using hwid1
      dsimp only
      rw [hitw, hw1]
      simp [hwidw]
  refine ⟨?_, fun f => mem_split_initiated_recipients db initiator_id w1.user_id f, ?_, ?_⟩
  · rw [initiateSplitState_notifications db item_id initiator_id target htgt hWFp]
    rw [initiated_notifs_map db item_id initiator_id target wid1 w1.user_id hinfo]
  · intro hmem
    exact ((mem_split_initiated_recipients db initiator_id w1.user_id w1.user_id).mp hmem).2 rfl
  · intro hnd
    exact List.Nodup.filter _ hnd

theorem C7_split_initiated_notifications_witness :
    (initiateSplitState exDBFriends 10 2 2).notifications =
      [{ user_id := 3, ntype := .split_initiated, actor_id := some 2,
         item_id := some 10, wishlist_id := some 20, split_claim_id := some 100 },
       { user_id := 4, ntype := .split_initiated, actor_id := some 2,
         item_id := some 10, wishlist_id := some 20, split_claim_id := some 100 }] ∧
    can_view_wishlist exDBFriends 20 4 = false ∧
    (1 : Nat) ∉ split_initiated_recipients exDBFriends 2 (some 1) := by
  have h := C7_split_initiated_notifications exDBFriends
    (initiateSplitState exDBFriends 10 2 2) 10 2 2 20 ⟨20, 1, .friends⟩
    rfl (by decide) rfl rfl
  exact ⟨h.1.trans (by decide), by decide, h.2.2.1⟩

theorem joinSplitState_eq (db : DB) (sc_id u : Nat) :
    joinSplitState db sc_id u =
      check_split_claim_completion (joinSplitBase db sc_id u) sc_id := rfl

theorem joinSplitBase_count (db : DB) (sc_id u : Nat) :
    participantCount (joinSplitBase db sc_id u) sc_id = participantCount db sc_id + 1 := by
  unfold participantCount
  show (List.filter _
    (({ split_claim_id := sc_id, user_id := u } : Participant) :: db.participants)).length = _
  rw [List.filter_cons, if_pos (by simp)]
  rfl

theorem check_completion_split_claims_spec (db : DB) (sc_id : Nat) (sc : SplitClaim)
    (hfind : db.split_claims.find? (fun s => decide (s.id = sc_id)) = some sc) :
    (check_split_claim_completion db sc_id).split_claims =
      if participantCount db sc_id ≥ sc.target_participants ∧ sc.status = SplitStatus.pending
      then db.split_claims.map fun s =>
        if decide (s.id = sc_id) then { s with status := .confirmed, confirmed_at := some db.now }
        else s
      else db.split_claims := by
  unfold check_split_claim_completion
  rw [hfind]
  show (if _ ∧ _ then _ else db).split_claims = _
  split
  · rfl
  · rfl

theorem joinSplitState_splits (db : DB) (sc_id u : Nat) (sc : SplitClaim)
    (hsc : db.split_claims.find? (fun s => decide (s.id = sc_id)) = some sc) :
    (joinSplitState db sc_id u).split_claims =
      if participantCount db sc_id + 1 ≥ sc.target_participants ∧ sc.status = SplitStatus.pending
      then db.split_claims.map fun s =>
        if decide (s.id = sc_id) then { s with status := .confirmed, confirmed_at := some db.now }
        else s
      else db.split_claims := by
  rw [joinSplitState_eq,
    check_completion_split_claims_spec _ _ sc
      (show (joinSplitBase db sc_id u).split_claims.find? _ = some sc from hsc),
    joinSplitBase_count]
  rfl

theorem joinSplitState_count (db : DB) (sc_id u : Nat) :
    participantCount (joinSplitState db sc_id u) sc_id = participantCount db sc_id + 1 := by
  unfold participantCount
  rw [joinSplitState_participants]
  rw [List.filter_cons, if_pos (by simp)]
  rfl

theorem find?_map_id_pred (l : List SplitClaim) (f : SplitClaim → SplitClaim) (sc_id : Nat)
    (hf : ∀ x, (f x).id = x.id) :
    (l.map f).find? (fun s => decide (s.id = sc_id)) =
      (l.find? (fun s => decide (s.id = sc_id))).map f := by
  induction l with
  | nil => rfl
  | cons a t ih =>
    simp only [List.map_cons, List.find?_cons]
    have hpe : decide ((f a).id = sc_id) = decide (a.id = sc_id) := by rw [hf a]
    rw [hpe]
    cases hd : decide (a.id = sc_id) with
    | true => rfl
    | false => exact ih

theorem initiateSplitState_splits_no_confirm (db : DB) (i u t : Nat) (htgt : 2 ≤ t)
    (hWFp : ∀ p ∈ db.participants, p.split_claim_id < db.nextId) :
    (initiateSplitState db i u t).split_claims =
      newSplitClaim db i u t :: db.split_claims := by
  rw [initiateSplitState_eq,
    check_completion_no_confirm _ _ (newSplitClaim db i u t)
      (List.find?_cons_of_pos _ (by simp [newSplitClaim]))
      (by rw [initiateSplitBase_count db i u t hWFp]; show 1 < t; omega)]
  rfl

/-- C2: a committed `joinSplit` increments the participant count by one and
transitions the split from `pending` to `confirmed` — stamping
`confirmed_at` with the transaction time — exactly when the new count
reaches the target, leaving the row untouched below target; and across the
whole step relation, a pending split only ever becomes confirmed through
such a participant-adding step that reaches the target, never through any
separate action. -/
theorem C2_auto_confirmation :
    (∀ (db db' : DB) (sc_id user_id : Nat) (sc : SplitClaim),
      joinSplit db sc_id user_id = Except.ok db' →
      db.split_claims.find? (fun s => decide (s.id = sc_id)) = some sc →
      sc.status = SplitStatus.pending ∧
      participantCount db' sc_id = participantCount db sc_id + 1 ∧
      ∃ s', db'.split_claims.find? (fun s => decide (s.id = sc_id)) = some s' ∧
        (sc.target_participants ≤ participantCount db sc_id + 1 →
          s'.status = SplitStatus.confirmed ∧ s'.confirmed_at = some db.now) ∧
        (participantCount db sc_id + 1 < sc.target_participants → s' = sc)) ∧
    (∀ db db' : DB, WFids db → Step db db' →
      ∀ (sid : Nat) (s s' : SplitClaim),
        db.split_claims.find? (fun x => decide (x.id = sid)) = some s →
        db'.split_claims.find? (fun x => decide (x.id = sid)) = some s' →
        s.status = SplitStatus.pending →
        s'.status = SplitStatus.confirmed →
        participantCount db' sid = participantCount db sid + 1 ∧
        s'.target_participants ≤ participantCount db' sid ∧
        s'.confirmed_at = some db.now) ∧
    (∀ db0 db : DB, ClaimFree db0 → Reachable db0 db → WFids db) := by
  have hfpres : ∀ (sc_id : Nat) (x : SplitClaim),
      (if decide (x.id = sc_id) then
        { x with status := SplitStatus.confirmed, confirmed_at := some (0 : Nat) } else x).id = x.id := by
    intro sc_id x
    by_cases hx : decide (x.id = sc_id) = true <;> simp [hx]
  refine ⟨?_, ?_, fun db0 db h0 h => reachable_wfids h0 h⟩
  · intro db db' sc_id user_id sc hok hsc
    obtain ⟨sc1, info, hsc1, hinfo, hou, hview, hpend, hdup, rfl⟩ := joinSplit_ok hok
    obtain rfl : sc1 = sc := by simpa using hsc1.symm.trans hsc
    refine ⟨hpend, joinSplitState_count db sc_id user_id, ?_⟩
    rw [joinSplitState_splits db sc_id user_id sc1 hsc1]
    have hscid : sc1.id = sc_id := by simpa using List.find?_some hsc1
    by_cases hC : sc1.target_participants ≤ participantCount db sc_id + 1
    · rw [if_pos ⟨hC, hpend⟩]
      rw [find?_map_id_pred _ _ _ (fun x => by
        by_cases hx : decide (x.id = sc_id) = true <;> simp [hx])]
      rw [hsc1]
      refine ⟨_, rfl, fun _ => ?_, fun hlt => absurd hC (by omega)⟩
      constructor <;> simp [hscid]
    · rw [if_neg (fun hcond => hC hcond.1)]
      rw [hsc1]
      exact ⟨sc1, rfl, fun hge => absurd hge hC, fun _ => rfl⟩
  · intro db db' hW hstep sid s s' hs hs' hpend hconf
    obtain ⟨hb, hnd, hpb, hpnd, hfb, hfnd⟩ := hW
    have hsid : s.id = sid := by simpa using List.find?_some hs
    have hsmem : s ∈ db.split_claims := List.mem_of_find?_eq_some hs
    cases hstep with
    | createSolo a b h =>
      obtain ⟨wid, w, _, _, _, _, _, _, rfl⟩ := createSoloClaim_ok h
      have heq : db.split_claims.find? (fun x => decide (x.id = sid)) = some s' := hs'
      rw [hs] at heq
      obtain rfl : s = s' := by simpa using heq
      simp [hpend] at hconf
    | cancelSolo a b h =>
      obtain ⟨c, _, _, _, rfl⟩ := cancelSoloClaim_ok h
      have heq : db.split_claims.find? (fun x => decide (x.id = sid)) = some s' := hs'
      rw [hs] at heq
      obtain rfl : s = s' := by simpa using heq
      simp [hpend] at hconf
    | initiate a b t h =>
      obtain ⟨htgt, wid, w, hwid, hw, hown, hview, hsolo, hsplit, rfl⟩ := initiateSplit_ok h
      rw [initiateSplitState_splits_no_confirm db a b t htgt hpb] at hs'
      have hnewid : decide ((newSplitClaim db a b t).id = sid) = false := by
        have h1 := hb s hsmem
        simp only [newSplitClaim, decide_eq_false_iff_not]
        omega
      simp only [List.find?_cons, hnewid] at hs'
      rw [hs] at hs'
      obtain rfl : s = s' := by simpa using hs'
      simp [hpend] at hconf
    | join a b h =>
      obtain ⟨sc, info, hsc, hinfo, hou, hview, hpend2, hdup, rfl⟩ := joinSplit_ok h
      rw [joinSplitState_splits db a b sc hsc] at hs'
      by_cases hC : participantCount db a + 1 ≥ sc.target_participants ∧
          sc.status = SplitStatus.pending
      · rw [if_pos hC] at hs'
        rw [find?_map_id_pred _ _ _ (fun x => by
          by_cases hx : decide (x.id = a) = true <;> simp [hx])] at hs'
        rw [hs] at hs'
        simp only [Option.map_some'] at hs'
        by_cases hsame : decide (s.id = a) = true
        · have ha : sid = a := by
            have hsa : s.id = a := of_decide_eq_true hsame
            rw [← hsid, hsa]
          rw [ha] at hs ⊢
          have hscs : sc = s := by simpa using hsc.symm.trans hs
          rw [hscs] at hC
          rw [if_pos hsame] at hs'
          obtain rfl := Option.some.inj hs'
          refine ⟨joinSplitState_count db a b, ?_, rfl⟩
          rw [joinSplitState_count db a b]
          exact hC.1
        · rw [if_neg hsame] at hs'
          obtain rfl : s = s' := by simpa using hs'
          simp [hpend] at hconf
      · rw [if_neg hC] at hs'
        rw [hs] at hs'
        obtain rfl : s = s' := by simpa using hs'
        simp [hpend] at hconf
    | leave a b h =>
      obtain ⟨sc, hsc, hscpend, hcase⟩ := leaveSplit_ok h
      rcases hcase with ⟨hini, rfl⟩ | ⟨hini, rfl⟩
      · have hs'mem : s' ∈ db.split_claims :=
          List.mem_of_mem_filter (List.mem_of_find?_eq_some hs')
        have hs'id : s'.id = sid := by simpa using List.find?_some hs'
        have heq : s = s' :=
          List.inj_on_of_nodup_map hnd hsmem hs'mem (by simp [hsid, hs'id])
        subst heq
        simp [hpend] at hconf
      · have heq : db.split_claims.find? (fun x => decide (x.id = sid)) = some s' := hs'
        rw [hs] at heq
        obtain rfl : s = s' := by simpa using heq
        simp [hpend] at hconf
    | fulfill a b r h =>
      unfold fulfill_claims_for_item at h
      split at h
      · simp only [Prod.mk.injEq] at h
        obtain ⟨hdb, _⟩ := h
        subst hdb
        have heq : db.split_claims.find? (fun x => decide (x.id = sid)) = some s' := hs'
        rw [hs] at heq
        obtain rfl : s = s' := by simpa using heq
        simp [hpend] at hconf
      · split at h
        · next sp hsp =>
          simp only [Prod.mk.injEq] at h
          obtain ⟨hdb, _⟩ := h
          subst hdb
          have heq : (db.split_claims.map fun x =>
              if decide (x.id = sp.id) then
                { x with claim_status := ClaimStatus.fulfilled, fulfilled_at := some db.now }
              else x).find? (fun x => decide (x.id = sid)) = some s' := hs'
          rw [find?_map_id_pred _ _ _ (fun x => by
            by_cases hx : decide (x.id = sp.id) = true <;> simp [hx])] at heq
          rw [hs] at heq
          simp only [Option.map_some'] at heq
          obtain rfl := Option.some.inj heq
          by_cases hx : decide (s.id = sp.id) = true <;> simp [hx, hpend] at hconf
        · simp only [Prod.mk.injEq] at h
          obtain ⟨hdb, _⟩ := h
          subst hdb
          have heq : db.split_claims.find? (fun x => decide (x.id = sid)) = some s' := hs'
          rw [hs] at heq
          obtain rfl : s = s' := by simpa using heq
          simp [hpend] at hconf
    | flagCreate a b h =>
      obtain ⟨wid, w, _, _, _, _, _, rfl⟩ := createFlag_ok h
      have heq : db.split_claims.find? (fun x => decide (x.id = sid)) = some s' := hs'
      rw [hs] at heq
      obtain rfl : s = s' := by simpa using heq
      simp [hpend] at hconf
    | flagResolve a b decision h =>
      obtain ⟨fl, wid, w, hfl, hwid, hw, hown, rfl⟩ := resolveFlag_ok h
      rcases resolveFlagState_claims db fl wid b decision with ⟨h1, h2⟩ | ⟨h1, h2⟩
      · rw [h2, hs] at hs'
        obtain rfl : s = s' := by simpa using hs'
        simp [hpend] at hconf
      · rw [h2] at hs'
        have hs'mem : s' ∈ db.split_claims :=
          List.mem_of_mem_filter (List.mem_of_find?_eq_some hs')
        have hs'id : s'.id = sid := by simpa using List.find?_some hs'
        have heq : s = s' :=
          List.inj_on_of_nodup_map hnd hsmem hs'mem (by simp [hsid, hs'id])
        subst heq
        simp [hpend] at hconf
    | flagDelete a b h =>
      obtain ⟨fl, _, _, _, rfl⟩ := deleteFlag_ok h
      have heq : db.split_claims.find? (fun x => decide (x.id = sid)) = some s' := hs'
      rw [hs] at heq
      obtain rfl : s = s' := by simpa using heq
      simp [hpend] at hconf

/-- Witness for C2: user 3 joins the pending 2-way split of
`exDBPendingSplit`; the participant count goes from 1 to 2 and the split
row auto-confirms with `confirmed_at` stamped, with no separate confirm
action; the well-formedness side condition holds of the claim-free `exDB`. -/
theorem C2_auto_confirmation_witness :
    (∃ s', (joinSplitState exDBPendingSplit 100 3).split_claims.find?
        (fun s => decide (s.id = 100)) = some s' ∧
      s'.status = SplitStatus.confirmed ∧ s'.confirmed_at = some exDBPendingSplit.now) ∧
    participantCount (joinSplitState exDBPendingSplit 100 3) 100 =
      participantCount exDBPendingSplit 100 + 1 ∧
    WFids exDB := by
  obtain ⟨hpend, hcount, s', hfind, hconfat, hlt⟩ :=
    C2_auto_confirmation.1 exDBPendingSplit (joinSplitState exDBPendingSplit 100 3) 100 3
      { id := 100, item_id := 10, initiated_by := 2, target_participants := 2,
        status := SplitStatus.pending, claim_status := ClaimStatus.active,
        confirmed_at := none, fulfilled_at := none }
      rfl (by decide)
  have hc := hconfat (by decide)
  exact ⟨⟨s', hfind, hc.1, hc.2⟩, hcount,
    C2_auto_confirmation.2.2 exDB exDB ⟨rfl, rfl, rfl, rfl⟩ Relation.ReflTransGen.refl⟩

/-- Witness for C6: in `exDBSolo`, user 2 cancels solo claim 100 on item 10,
user 3 re-claims, both commit; the cancelled row is retained and visible to
user 3 next to the new active claim. -/
theorem C6_reclaim_after_cancel_witness :
    ∃ db1 db2,
      cancelSoloClaim exDBSolo 100 2 = Except.ok db1 ∧
      createSoloClaim db1 10 3 = Except.ok db2 ∧
      ({ id := 100, item_id := 10, claimed_by := 2, status := ClaimStatus.cancelled,
         fulfilled_at := none } : ItemClaim) ∈ db2.item_claims ∧
      ({ id := 100, item_id := 10, claimed_by := 2, status := ClaimStatus.cancelled,
         fulfilled_at := none } : ItemClaim) ∈ visibleClaims db2 3 ∧
      (∃ cn ∈ db2.item_claims, cn.item_id = 10 ∧ cn.claimed_by = 3 ∧
        cn.status = ClaimStatus.active) := by
  exact C6_reclaim_after_cancel exDBSolo 100 10 2 3 20
    { id := 100, item_id := 10, claimed_by := 2, status := ClaimStatus.active,
      fulfilled_at := none }
    { id := 20, user_id := 1, privacy := Privacy.friends }
    rfl rfl rfl rfl (by decide) (by decide) rfl rfl (by decide) (by decide)
